import Mathlib

/-!
Verification development for the PStream multipath QUIC endpoint.

The definitions below are a shallow embedding of the Go sources:
ackhandler/sent_packet_handler.go (per-path reliability engine),
the packet packer, congestion/bdw_stats.go (bandwidth estimator) and
the path manager.  Pure functions become Lean functions; the mutable
handler becomes explicit state passing; machine times and durations are
modelled as integers counting nanoseconds.  Collaborating components
that live outside the translated files (congestion controller, RTT
statistics, stream framer, crypto sealers) only feed values into the
translated control flow; those values are passed in explicitly through
environment records, so every theorem is proved for all of their
possible outputs.
-/

namespace PStream

/-! ## Time constants of ackhandler/sent_packet_handler.go, in nanoseconds -/

def defaultRTOTimeout : Int := 500000000

def minRTOTimeout : Int := 200000000

def maxRTOTimeout : Int := 60000000000

def maxTailLossProbes : Nat := 2

def minRetransmissionTime : Int := 200000000

def minTailLossProbeTimeout : Int := 10000000

/-- Modelled from the spec: protocol.MaxTrackedSentPackets is not under src;
the spec describes it as a configured ceiling, for example 2 to the 15. -/
def MaxTrackedSentPackets : Nat := 32768

/-- Modelled from the spec: protocol.MaxTrackedSkippedPackets is not under src;
the spec says the skipped list is capped at a constant (a bounded window). -/
def MaxTrackedSkippedPackets : Nat := 10

/-! ## Wire frames (internal/wire), as far as the ack handler and packer read them -/

structure AckRange where
  first : Nat
  last : Nat
  deriving DecidableEq, Repr

structure AckFrame where
  pathID : Nat
  largestAcked : Nat
  lowestAcked : Nat
  delayTime : Int
  ackRanges : List AckRange
  deriving DecidableEq, Repr

/-- Modelled from the spec: wire.AckFrame.HasMissingRanges is not under src;
the spec defines it as AckRanges holding more than one range. -/
def AckFrame.HasMissingRanges (f : AckFrame) : Bool :=
  decide (1 < f.ackRanges.length)

/-- Modelled from the spec: wire.AckFrame.AcksPacket is not under src.  Per the
spec a packet is covered by the ACK when its number lies in the closed interval
LowestAcked..LargestAcked and, when the frame has missing ranges, additionally
belongs to one of the declared closed AckRanges; without missing ranges the
frame acks every number between LowestAcked and LargestAcked. -/
def AckFrame.AcksPacket (f : AckFrame) (p : Nat) : Bool :=
  if p < f.lowestAcked ∨ f.largestAcked < p then false
  else if f.HasMissingRanges then
    f.ackRanges.any fun r => decide (r.first ≤ p ∧ p ≤ r.last)
  else true

structure ClosePathFrame where
  pathID : Nat
  largestAcked : Nat
  lowestAcked : Nat
  ackRanges : List AckRange
  deriving DecidableEq, Repr

/-- Modelled from the spec: wire.ClosePathFrame.HasMissingRanges, as for ACK frames. -/
def ClosePathFrame.HasMissingRanges (f : ClosePathFrame) : Bool :=
  decide (1 < f.ackRanges.length)

/-- Modelled from the spec: wire.ClosePathFrame.AcksPacket, with the same
coverage rule as AckFrame.AcksPacket (a CLOSE_PATH frame is shaped like an ACK). -/
def ClosePathFrame.AcksPacket (f : ClosePathFrame) (p : Nat) : Bool :=
  if p < f.lowestAcked ∨ f.largestAcked < p then false
  else if f.HasMissingRanges then
    f.ackRanges.any fun r => decide (r.first ≤ p ∧ p ≤ r.last)
  else true

structure StopWaitingFrame where
  leastUnacked : Nat
  packetNumber : Nat
  packetNumberLen : Nat
  deriving DecidableEq, Repr

structure StreamFrame where
  streamID : Nat
  offset : Nat
  finBit : Bool
  dataLenPresent : Bool
  dataLen : Nat
  deriving DecidableEq, Repr

/-- The wire frame union, one case per frame kind the translated code inspects;
frame kinds it never distinguishes are collapsed into the case named other. -/
inductive Frame where
  | ack (f : AckFrame)
  | stopWaiting (f : StopWaitingFrame)
  | stream (f : StreamFrame)
  | ping
  | connectionClose
  | blocked (streamID : Nat)
  | other
  deriving DecidableEq, Repr

inductive EncryptionLevel where
  | unencrypted
  | secure
  | forwardSecure
  deriving DecidableEq, Repr

def EncryptionLevel.toNat : EncryptionLevel → Nat
  | .unencrypted => 0
  | .secure => 1
  | .forwardSecure => 2

/-! ## Packets tracked by the sent-packet handler (ackhandler.Packet) -/

structure Packet where
  packetNumber : Nat
  frames : List Frame
  length : Nat
  encryptionLevel : EncryptionLevel
  sendTime : Int := 0
  deriving DecidableEq, Repr

/-- Modelled from the spec: ackhandler.IsFrameRetransmittable is not under src;
pure ACK and STOP_WAITING frames are the non-retransmittable ones. -/
def IsFrameRetransmittable : Frame → Bool
  | .ack _ => false
  | .stopWaiting _ => false
  | _ => true

/-- Modelled from the spec: ackhandler.stripNonRetransmittableFrames is not
under src; it keeps exactly the retransmittable frames. -/
def stripNonRetransmittableFrames (fs : List Frame) : List Frame :=
  fs.filter IsFrameRetransmittable

/-- Modelled from the spec: ackhandler.Packet.IsRetransmittable is not under
src; a packet is retransmittable when it carries a retransmittable frame. -/
def Packet.IsRetransmittable (p : Packet) : Bool :=
  p.frames.any IsFrameRetransmittable

/-! ## The sent-packet handler state (struct sentPacketHandler)

External collaborators are not part of the state: congestion (SendAlgorithm),
rttStats and bdwStats hold their own state and only feed scalar values into
the handler control flow; those values arrive through SPHEnv.  The
stop-waiting manager is modelled from the spec by its nextLeastUnacked field,
the only one the handler writes. -/

structure SPH where
  pathID : Nat
  lastSentPacketNumber : Nat
  skippedPackets : List Nat
  numNonRetransmittablePackets : Nat
  LargestAcked : Nat
  largestReceivedPacketWithAck : Nat
  packetHistory : List Packet
  retransmissionQueue : List Packet
  bytesInFlight : Nat
  rtoCount : Nat
  tlpCount : Nat
  lossTime : Option Int
  lastSentTime : Int
  alarm : Option Int
  packets : Nat
  retransmissions : Nat
  losses : Nat
  swmNextLeastUnacked : Nat
  deriving DecidableEq, Repr

/-- Scalar inputs the handler reads from collaborators during one operation:
the wall clock, the RTT statistics, the congestion controller and the result
of the RTO callback.  delayUntilLost stands for the loss threshold that
detectLostPackets computes from maxRTT with float64 arithmetic; the float
computation itself is abstracted into this input. -/
structure SPHEnv where
  now : Int
  rttSmoothedRTT : Nat
  congSmoothedRTT : Nat
  congRetransmissionDelay : Nat
  delayUntilLost : Int
  potentiallyFailed : Bool
  deriving DecidableEq, Repr

inductive SPHErr where
  | packetNumberNotIncreasing
  | tooManyTrackedSentPackets
  | ackForSkippedPacket
  | ackForUnsentPacket
  | duplicateOrOutOfOrderAck
  | ackBug
  deriving DecidableEq, Repr

def NewSentPacketHandler (pathID : Nat) : SPH :=
  { pathID := pathID
    lastSentPacketNumber := 0
    skippedPackets := []
    numNonRetransmittablePackets := 0
    LargestAcked := 0
    largestReceivedPacketWithAck := 0
    packetHistory := []
    retransmissionQueue := []
    bytesInFlight := 0
    rtoCount := 0
    tlpCount := 0
    lossTime := none
    lastSentTime := 0
    alarm := none
    packets := 0
    retransmissions := 0
    losses := 0
    swmNextLeastUnacked := 0 }

def largestInOrderAcked (h : SPH) : Nat :=
  match h.packetHistory with
  | f :: _ => f.packetNumber - 1
  | [] => h.LargestAcked

/-- One step of the skipped-packet recording loop in SentPacket: append the
number, then drop the oldest entry when the bounded window overflows. -/
def recordSkipped (skipped : List Nat) (p : Nat) : List Nat :=
  let s := skipped ++ [p]
  if MaxTrackedSkippedPackets < s.length then s.drop 1 else s

/-- The loop in SentPacket over every packet number strictly between
lastSentPacketNumber and the new packet number. -/
def recordSkippedRange (skipped : List Nat) (lastSent pn : Nat) : List Nat :=
  (List.range' (lastSent + 1) (pn - (lastSent + 1))).foldl recordSkipped skipped

/-- PacketList.Remove of one element.  The Go list removes a specific node;
node identity is realised here by the packet number, which is unique in the
history because the history is strictly ascending (proved below). -/
def removeByPN : List Packet → Nat → List Packet
  | [], _ => []
  | q :: rest, pn => if q.packetNumber = pn then rest else q :: removeByPN rest pn

def onPacketAcked (h : SPH) (packet : Packet) : SPH :=
  { h with
    bytesInFlight := h.bytesInFlight - packet.length
    rtoCount := 0
    tlpCount := 0
    packetHistory := removeByPN h.packetHistory packet.packetNumber }

/-- stopWaitingManager.QueuedRetransmissionForPacketNumber (in the ackhandler
section concatenated into src/internal/wire/public_reset.go): if the queued
packet number is at least nextLeastUnacked, raise nextLeastUnacked to that
number plus one. -/
def swmQueuedRetransmission (next pn : Nat) : Nat :=
  if next ≤ pn then pn + 1 else next

def queuePacketForRetransmission (h : SPH) (packet : Packet) : SPH :=
  { h with
    bytesInFlight := h.bytesInFlight - packet.length
    retransmissionQueue := h.retransmissionQueue ++ [packet]
    packetHistory := removeByPN h.packetHistory packet.packetNumber
    swmNextLeastUnacked := swmQueuedRetransmission h.swmNextLeastUnacked packet.packetNumber }

/-- AckRanges are stored descending and walked from the last element backwards;
rangeAt gives the range the walk reads at index idx. -/
def rangeAt (ranges : List AckRange) (idx : Nat) : AckRange :=
  ranges.getD (ranges.length - 1 - idx) ⟨0, 0⟩

/-- The loop step count of advanceRangeIndex: each iteration requires
idx below the range count minus one, so the distance to that bound is exact
fuel; when the fuel runs out the loop guard is false anyway. -/
def advanceAux (ranges : List AckRange) (pn : Nat) : Nat → Nat → Nat
  | 0, idx => idx
  | fuel + 1, idx =>
    if (rangeAt ranges idx).last < pn ∧ idx < ranges.length - 1 then
      advanceAux ranges pn fuel (idx + 1)
    else idx

/-- The inner loop of determineNewlyAckedPackets that advances ackRangeIndex
past ranges that end below the packet number. -/
def advanceRangeIndex (ranges : List AckRange) (pn idx : Nat) : Nat :=
  advanceAux ranges pn (ranges.length - 1 - idx) idx

/-- The history walk shared verbatim by determineNewlyAckedPackets and
determineNewlyAckedPacketsClosePath (the source duplicates it for the two
frame types).  The error is the BUG return for a packet that would be acked
outside the matched range. -/
def determineAux (lowestAcked largestAcked : Nat) (hasMissing : Bool)
    (ranges : List AckRange) : List Packet → Nat → Except Unit (List Packet)
  | [], _ => .ok []
  | packet :: rest, ackRangeIndex =>
    if packet.packetNumber < lowestAcked then
      determineAux lowestAcked largestAcked hasMissing ranges rest ackRangeIndex
    else if largestAcked < packet.packetNumber then .ok []
    else if hasMissing then
      let idx := advanceRangeIndex ranges packet.packetNumber ackRangeIndex
      let ackRange := rangeAt ranges idx
      if ackRange.first ≤ packet.packetNumber then
        if ackRange.last < packet.packetNumber then .error ()
        else
          match determineAux lowestAcked largestAcked hasMissing ranges rest idx with
          | .error e => .error e
          | .ok l => .ok (packet :: l)
      else determineAux lowestAcked largestAcked hasMissing ranges rest idx
    else
      match determineAux lowestAcked largestAcked hasMissing ranges rest ackRangeIndex with
      | .error e => .error e
      | .ok l => .ok (packet :: l)

def determineNewlyAckedPackets (h : SPH) (ackFrame : AckFrame) : Except Unit (List Packet) :=
  determineAux ackFrame.lowestAcked ackFrame.largestAcked ackFrame.HasMissingRanges
    ackFrame.ackRanges h.packetHistory 0

def determineNewlyAckedPacketsClosePath (h : SPH) (f : ClosePathFrame) : Except Unit (List Packet) :=
  determineAux f.lowestAcked f.largestAcked f.HasMissingRanges
    f.ackRanges h.packetHistory 0

/-- maybeUpdateRTT only updates the external RTTStats object; the handler
keeps no RTT state, so the model returns just whether an update happened. -/
def maybeUpdateRTT (history : List Packet) (largestAcked : Nat) : Bool :=
  match history with
  | [] => false
  | packet :: rest =>
    if packet.packetNumber = largestAcked then true
    else if largestAcked < packet.packetNumber then false
    else maybeUpdateRTT rest largestAcked

/-- Wrap of a mathematical integer into a signed 64 bit value, as Go overflow
behaves. -/
def wrap64 (z : Int) : Int := (z + 2 ^ 63) % 2 ^ 64 - 2 ^ 63

/-- Go left shift of an int64 by an unsigned count: low 64 bits are kept. -/
def int64Shl (x : Int) (n : Nat) : Int := wrap64 (x * 2 ^ n)

def computeRTOTimeout (h : SPH) (env : SPHEnv) : Int :=
  let rto : Int := env.congRetransmissionDelay
  let rto := if rto = 0 then defaultRTOTimeout else rto
  let rto := max rto minRTOTimeout
  let rto := int64Shl rto h.rtoCount
  min rto maxRTOTimeout

/-- The source asks whether the history front and its successor both exist,
which is exactly a history of at least two packets. -/
def hasMultipleOutstandingRetransmittablePackets (h : SPH) : Bool :=
  decide (2 ≤ h.packetHistory.length)

def computeTLPTimeout (h : SPH) (env : SPHEnv) : Int :=
  let rtt : Int := env.congSmoothedRTT
  if hasMultipleOutstandingRetransmittablePackets h then
    max (2 * rtt) (rtt * 3 / 2 + minRetransmissionTime / 2)
  else
    max (2 * rtt) minTailLossProbeTimeout

def updateLossDetectionAlarm (h : SPH) (env : SPHEnv) : SPH :=
  if h.packetHistory.length = 0 then { h with alarm := none }
  else if h.lossTime ≠ none then { h with alarm := h.lossTime }
  else if env.rttSmoothedRTT ≠ 0 ∧ h.tlpCount < maxTailLossProbes then
    { h with alarm := some (h.lastSentTime + computeTLPTimeout h env) }
  else
    { h with alarm := some (h.lastSentTime + max (computeRTOTimeout h env) minRetransmissionTime) }

/-- The collection walk of detectLostPackets: gather the overdue packets (in
order) and set lossTime once, on the first packet that is aging but not yet
past the threshold. -/
def detectLostAux (largestAcked : Nat) (now delayUntilLost : Int) :
    List Packet → Option Int → List Packet × Option Int
  | [], lossTime => ([], lossTime)
  | packet :: rest, lossTime =>
    if largestAcked < packet.packetNumber then ([], lossTime)
    else
      let timeSinceSent := now - packet.sendTime
      if delayUntilLost < timeSinceSent then
        let r := detectLostAux largestAcked now delayUntilLost rest lossTime
        (packet :: r.1, r.2)
      else if lossTime = none then
        detectLostAux largestAcked now delayUntilLost rest
          (some (now + (delayUntilLost - timeSinceSent)))
      else detectLostAux largestAcked now delayUntilLost rest lossTime

def detectLostPackets (h : SPH) (env : SPHEnv) : SPH :=
  let r := detectLostAux h.LargestAcked env.now env.delayUntilLost h.packetHistory none
  let h := { h with lossTime := r.2, losses := h.losses + r.1.length }
  r.1.foldl queuePacketForRetransmission h

/-- The collection walk of SetInflightAsLost: every history packet up to the
first one above LargestAcked. -/
def setInflightCollect (largestAcked : Nat) : List Packet → List Packet
  | [] => []
  | packet :: rest =>
    if largestAcked < packet.packetNumber then []
    else packet :: setInflightCollect largestAcked rest

def SetInflightAsLost (h : SPH) : SPH :=
  let lostPackets := setInflightCollect h.LargestAcked h.packetHistory
  let h := { h with losses := h.losses + lostPackets.length }
  lostPackets.foldl queuePacketForRetransmission h

def skippedPacketsAcked (h : SPH) (ackFrame : AckFrame) : Bool :=
  h.skippedPackets.any ackFrame.AcksPacket

def skippedPacketsAckedClosePath (h : SPH) (f : ClosePathFrame) : Bool :=
  h.skippedPackets.any f.AcksPacket

/-- The index scan of garbageCollectSkippedPackets: deleteIndex ends as one
past the last position holding a number at most lioa. -/
def gcIndex (lioa : Nat) : List Nat → Nat → Nat → Nat
  | [], _, deleteIndex => deleteIndex
  | p :: rest, i, deleteIndex =>
    gcIndex lioa rest (i + 1) (if p ≤ lioa then i + 1 else deleteIndex)

def garbageCollectSkippedPackets (h : SPH) : SPH :=
  { h with skippedPackets :=
      h.skippedPackets.drop (gcIndex (largestInOrderAcked h) h.skippedPackets 0 0) }

/-- stopWaitingManager.ReceivedAck (in the ackhandler section concatenated into
src/internal/wire/public_reset.go): if ack.LargestAcked is at least
nextLeastUnacked, raise nextLeastUnacked to LargestAcked plus one. -/
def swmReceivedAck (next largestAcked : Nat) : Nat :=
  if next ≤ largestAcked then largestAcked + 1 else next

def SentPacket (h : SPH) (packet : Packet) (env : SPHEnv) : Option SPHErr × SPH :=
  if packet.packetNumber ≤ h.lastSentPacketNumber then
    (some .packetNumberNotIncreasing, h)
  else if MaxTrackedSentPackets < h.retransmissionQueue.length + h.packetHistory.length + 1 then
    (some .tooManyTrackedSentPackets, h)
  else
    let h := { h with skippedPackets :=
        recordSkippedRange h.skippedPackets h.lastSentPacketNumber packet.packetNumber }
    let h := { h with
        lastSentPacketNumber := packet.packetNumber
        packets := h.packets + 1
        lastSentTime := env.now }
    let frames := stripNonRetransmittableFrames packet.frames
    let isRetransmittable := !frames.isEmpty
    let h :=
      if isRetransmittable then
        let packet := { packet with sendTime := env.now, frames := frames }
        { h with
            bytesInFlight := h.bytesInFlight + packet.length
            packetHistory := h.packetHistory ++ [packet]
            numNonRetransmittablePackets := 0 }
      else
        { h with numNonRetransmittablePackets := h.numNonRetransmittablePackets + 1 }
    (none, updateLossDetectionAlarm h env)

def ReceivedAck (h : SPH) (ackFrame : AckFrame) (withPacketNumber : Nat)
    (_rcvTime : Int) (env : SPHEnv) : Option SPHErr × SPH :=
  if h.lastSentPacketNumber < ackFrame.largestAcked then (some .ackForUnsentPacket, h)
  else if withPacketNumber ≤ h.largestReceivedPacketWithAck then
    (some .duplicateOrOutOfOrderAck, h)
  else
    let h := { h with largestReceivedPacketWithAck := withPacketNumber }
    if ackFrame.largestAcked ≤ largestInOrderAcked h then (none, h)
    else
      let h := { h with LargestAcked := ackFrame.largestAcked }
      if skippedPacketsAcked h ackFrame then (some .ackForSkippedPacket, h)
      else
        let _rttUpdated := maybeUpdateRTT h.packetHistory ackFrame.largestAcked
        match determineNewlyAckedPackets h ackFrame with
        | .error _ => (some .ackBug, h)
        | .ok ackedPackets =>
          let h := ackedPackets.foldl onPacketAcked h
          let h := detectLostPackets h env
          let h := updateLossDetectionAlarm h env
          let h := garbageCollectSkippedPackets h
          let h := { h with swmNextLeastUnacked :=
              swmReceivedAck h.swmNextLeastUnacked ackFrame.largestAcked }
          (none, h)

def ReceivedClosePath (h : SPH) (f : ClosePathFrame) (withPacketNumber : Nat)
    (_rcvTime : Int) : Option SPHErr × SPH :=
  if h.lastSentPacketNumber < f.largestAcked then (some .ackForUnsentPacket, h)
  else if withPacketNumber ≤ h.largestReceivedPacketWithAck then
    (some .duplicateOrOutOfOrderAck, h)
  else
    let h := { h with largestReceivedPacketWithAck := withPacketNumber }
    if skippedPacketsAckedClosePath h f then (some .ackForSkippedPacket, h)
    else
      match determineNewlyAckedPacketsClosePath h f with
      | .error _ => (some .ackBug, h)
      | .ok ackedPackets =>
        let h := ackedPackets.foldl onPacketAcked h
        let h := SetInflightAsLost h
        let h := garbageCollectSkippedPackets h
        (none, h)

def retransmitTLP (h : SPH) : SPH :=
  match h.packetHistory.getLast? with
  | some p => queuePacketForRetransmission h p
  | none => h

def queueRTO (h : SPH) (packet : Packet) : SPH :=
  let h := queuePacketForRetransmission h packet
  { h with losses := h.losses + 1 }

/-- The retransmitAllPackets loop runs while the history is nonempty, queueing
its front each iteration; queueRTO on the front removes exactly the front, so
the history length bounds the loop and serves as fuel. -/
def retransmitAllAux : Nat → SPH → SPH
  | 0, h => h
  | fuel + 1, h =>
    match h.packetHistory with
    | [] => h
    | p :: _ => retransmitAllAux fuel (queueRTO h p)

def retransmitAllPackets (h : SPH) : SPH :=
  retransmitAllAux h.packetHistory.length h

def retransmitOldestPacket (h : SPH) : SPH :=
  match h.packetHistory with
  | p :: _ => queueRTO h p
  | [] => h

def retransmitOldestTwoPackets (h : SPH) : SPH :=
  retransmitOldestPacket (retransmitOldestPacket h)

def hasOutstandingRetransmittablePacket (h : SPH) : Bool :=
  h.packetHistory.any Packet.IsRetransmittable

def OnAlarm (h : SPH) (env : SPHEnv) : SPH :=
  if ¬ hasOutstandingRetransmittablePacket h then { h with alarm := none }
  else
    let h :=
      if h.lossTime ≠ none then detectLostPackets h env
      else if h.tlpCount < maxTailLossProbes then
        let h2 := retransmitTLP h
        { h2 with tlpCount := h2.tlpCount + 1 }
      else
        let h2 :=
          if env.potentiallyFailed then retransmitAllPackets h
          else retransmitOldestTwoPackets h
        { h2 with rtoCount := h2.rtoCount + 1 }
    updateLossDetectionAlarm h env

def DequeuePacketForRetransmission (h : SPH) : Option Packet × SPH :=
  match h.retransmissionQueue with
  | [] => (none, h)
  | packet :: rest =>
    (some packet,
     { h with retransmissionQueue := rest, retransmissions := h.retransmissions + 1 })

/-! ## Bandwidth estimator (congestion/bdw_stats.go)

Bandwidth values are in bits per second, as unsigned 64 bit counts; the model
uses Nat. -/

structure BDWStats where
  bandwidth : Nat
  compareWindow : List Nat
  roundRobinIndex : Nat
  deriving DecidableEq, Repr

def NewBDWStats (bandwidth : Nat) : BDWStats :=
  { bandwidth := bandwidth, compareWindow := List.replicate 10 0, roundRobinIndex := 0 }

def GetBandwidth (b : BDWStats) : Nat := b.bandwidth / 1048576

/-- Modelled from the spec: congestion.BytesPerSecond (bandwidth.go is not
under src); bandwidth counts bits per second, so one byte per second is 8. -/
def BytesPerSecond : Nat := 8

/-- Translation of UpdateBDW, dead branch included: the body is gated behind a
local disable flag that the source sets to true, so the call never changes the
state.  The gated branch is translated without the 64 bit wrap of the sample
product (it cannot run). -/
def UpdateBDW (b : BDWStats) (sentDelta : Nat) (sentDelay : Nat) : BDWStats :=
  let disable := true
  if !disable then
    let bdw := sentDelta * 1000000000 / sentDelay * BytesPerSecond
    let size := b.compareWindow.length
    let startIndex := b.roundRobinIndex
    let b := { b with compareWindow := b.compareWindow.set (startIndex % size) bdw }
    let b := { b with roundRobinIndex := (b.roundRobinIndex + 1) % size }
    { b with bandwidth := b.compareWindow.foldl max b.bandwidth }
  else b

/-! ## Path manager (pathManager.setup, createPath, createPathFromRemote)

Only the path-identifier bookkeeping is state of this model: the UDP
addresses, connections and the RTT and bandwidth initialisation touch
external objects.  The session paths map is modelled by the list of PathIDs
it holds. -/

inductive Perspective where
  | client
  | server
  deriving DecidableEq, Repr

/-- Modelled from the spec: protocol.InitialPathID is not under src; PathID 0
is the initial path. -/
def InitialPathID : Nat := 0

structure PathManager where
  perspective : Perspective
  nxtPathID : Nat
  paths : List Nat
  deriving DecidableEq, Repr

def pathManagerSetup (perspective : Perspective) : PathManager :=
  let nxtPathID : Nat :=
    match perspective with
    | .client => 1
    | .server => 2
  { perspective := perspective, nxtPathID := nxtPathID, paths := [InitialPathID] }

/-- createPath first scans the existing paths for one with the same local and
remote address; the addresses are external, so the outcome of that scan is the
flag pathAlreadyExists.  Otherwise the next local PathID is allocated and
advanced by 2. -/
def createPath (pm : PathManager) (pathAlreadyExists : Bool) : Option Nat × PathManager :=
  if pathAlreadyExists then (none, pm)
  else
    (some pm.nxtPathID,
     { pm with paths := pm.paths ++ [pm.nxtPathID], nxtPathID := pm.nxtPathID + 2 })

inductive PathErr where
  | pathAlreadyExists
  | badPathIDParity
  deriving DecidableEq, Repr

def createPathFromRemote (pm : PathManager) (pathID : Nat) : Except PathErr PathManager :=
  if pathID ∈ pm.paths then .error .pathAlreadyExists
  else if pm.perspective = .client ∧ pathID % 2 ≠ 0 then .error .badPathIDParity
  else if pm.perspective = .server ∧ pathID % 2 = 0 then .error .badPathIDParity
  else .ok { pm with paths := pm.paths ++ [pathID] }

/-! ## Packet packer (packet_packer.go)

The packer state keeps the queued control frames and the per-path
STOP_WAITING and ACK maps.  The stream framer, the crypto sealers, frame
serialisation lengths and the packet-number generator are external
collaborators; the values they hand the packer flow in through PackerEnv, so
the theorems below hold for every behaviour of those collaborators. -/

def VersionMP : Int := 512

/-- Modelled from the spec: protocol.MaxPacketSize is not under src; the
strict maximum packet size in bytes. -/
def MaxPacketSize : Nat := 1350

/-- Modelled from the spec: protocol.NonForwardSecurePacketSizeReduction is
not under src; the reduced budget for crypto packets. -/
def NonForwardSecurePacketSizeReduction : Nat := 50

structure PublicHeader where
  connectionID : Nat
  packetNumber : Nat
  packetNumberLen : Nat
  versionFlag : Bool
  multipathFlag : Bool
  pathID : Nat
  truncateConnectionID : Bool
  hasDiversificationNonce : Bool
  deriving DecidableEq, Repr

structure PackedPacket where
  number : Nat
  raw : List Nat
  frames : List Frame
  encryptionLevel : EncryptionLevel
  deriving DecidableEq, Repr

/-- Per-path inputs of one packer call: the path identity, the least-unacked
snapshot, the packet-number generator (Peek and the number Pop will yield) and
the session handshake state the public header reads. -/
structure PathState where
  pathID : Nat
  leastUnacked : Nat
  pnPeek : Nat
  pnPop : Nat
  sessHandshakeComplete : Bool
  deriving DecidableEq, Repr

structure PackerState where
  connectionID : Nat
  perspective : Perspective
  version : Int
  controlFrames : List Frame
  stopWaiting : Nat → Option StopWaitingFrame
  ackFrame : Nat → Option AckFrame

/-- Outputs of the external collaborators during one packer call.  bufferLength
is the byte count the header and frame writers produce before sealing and
sealedBytes the sealed packet bytes; minLength is frame MinLength (its error
return cannot fire for the frames the packer builds and is not modelled);
publicHeaderLength is PublicHeader.GetLength under the same proviso; the
popStreamFrames family are the stream framer pops, already restricted to
stream frames by their type. -/
structure PackerEnv where
  hasCryptoStreamFrame : Bool
  popCryptoStreamFrame : Nat → StreamFrame
  encLevel : EncryptionLevel
  sealOverhead : Nat
  cryptoEncLevel : EncryptionLevel
  cryptoSealOverhead : Nat
  sealerForLevelOk : Bool
  sealerForLevelOverhead : Nat
  truncateConnectionID : Bool
  publicHeaderLength : Nat
  pnLenForHeader : Nat → Nat → Nat
  minLength : Frame → Nat
  popStreamFrames : Nat → List StreamFrame
  popStreamFramesOfPath : Nat → List StreamFrame
  popStreamFramesOfStream : Nat → Nat → List StreamFrame
  blockedFrames : List Nat
  bufferLength : PublicHeader → List Frame → Nat
  sealedBytes : PublicHeader → List Frame → List Nat

inductive PackErr where
  | payloadTooLarge
  | packetTooLarge
  | peekPopMismatch
  | noAckFrameQueued
  | forwardSecureHandshakeRetransmission
  | missingStopWaiting
  | sealerForLevelErr
  deriving DecidableEq, Repr

/-- Update of a per-path map at one key. -/
def setAt {α : Type} (m : Nat → Option α) (k : Nat) (v : Option α) : Nat → Option α :=
  fun i => if i = k then v else m i

def canSendData (p : PackerState) (encLevel : EncryptionLevel) : Bool :=
  if p.perspective = .client then
    decide (EncryptionLevel.secure.toNat ≤ encLevel.toNat)
  else decide (encLevel = .forwardSecure)

def QueueControlFrame (p : PackerState) (frame : Frame) (pathID : Nat) : PackerState :=
  match frame with
  | .stopWaiting swf => { p with stopWaiting := setAt p.stopWaiting pathID (some swf) }
  | .ack af => { p with ackFrame := setAt p.ackFrame pathID (some af) }
  | f => { p with controlFrames := p.controlFrames ++ [f] }

def getPublicHeader (p : PackerState) (env : PackerEnv)
    (encLevel : EncryptionLevel) (pth : PathState) : PublicHeader :=
  let pnum := pth.pnPeek
  let packetNumberLen := env.pnLenForHeader pnum pth.leastUnacked
  let ph : PublicHeader :=
    { connectionID := p.connectionID
      packetNumber := pnum
      packetNumberLen := packetNumberLen
      versionFlag := false
      multipathFlag := false
      pathID := 0
      truncateConnectionID := env.truncateConnectionID
      hasDiversificationNonce := false }
  let ph :=
    if p.perspective = .server ∧ encLevel = .secure then
      { ph with hasDiversificationNonce := true }
    else ph
  let ph :=
    if p.perspective = .client ∧ encLevel ≠ .forwardSecure then
      { ph with versionFlag := true }
    else ph
  if pth.sessHandshakeComplete ∧ VersionMP ≤ p.version then
    { ph with multipathFlag := true, pathID := pth.pathID, truncateConnectionID := false }
  else ph

/-- writeAndSealPacket: header and frame serialisation and sealing are external
wire code, abstracted by bufferLength and sealedBytes; the size check and the
Peek versus Pop comparison are translated. -/
def writeAndSealPacket (env : PackerEnv) (publicHeader : PublicHeader)
    (payloadFrames : List Frame) (sealOverhead : Nat) (pth : PathState) :
    Except PackErr (List Nat) :=
  if MaxPacketSize < env.bufferLength publicHeader payloadFrames + sealOverhead then
    .error .packetTooLarge
  else if pth.pnPop ≠ publicHeader.packetNumber then .error .peekPopMismatch
  else .ok (env.sealedBytes publicHeader payloadFrames)

/-- The control-frame loop of composeNextPacket pops the LAST queued control
frame while it fits; modelled on the reversed queue so the recursion is
structural.  Returns the remaining (reversed) queue, the grown payload and the
grown payload length. -/
def popControlAux (minLength : Frame → Nat) (maxFrameSize : Nat) :
    List Frame → List Frame → Nat → List Frame × List Frame × Nat
  | [], payloadFrames, payloadLength => ([], payloadFrames, payloadLength)
  | frame :: rest, payloadFrames, payloadLength =>
    if maxFrameSize < payloadLength + minLength frame then
      (frame :: rest, payloadFrames, payloadLength)
    else
      popControlAux minLength maxFrameSize rest
        (payloadFrames ++ [frame]) (payloadLength + minLength frame)

def popControlFrames (minLength : Frame → Nat) (maxFrameSize : Nat)
    (controlFrames payloadFrames : List Frame) (payloadLength : Nat) :
    List Frame × List Frame × Nat :=
  let r := popControlAux minLength maxFrameSize controlFrames.reverse payloadFrames payloadLength
  (r.1.reverse, r.2.1, r.2.2)

/-- Clearing DataLenPresent on the final stream frame of the packet. -/
def clearLastDataLen : List StreamFrame → List StreamFrame
  | [] => []
  | [f] => [{ f with dataLenPresent := false }]
  | f :: rest => f :: clearLastDataLen rest

/-- composeNextPacket.  Like the source it may leave the packer state changed
(consumed control frames, appended BLOCKED frames) even when it fails, so the
error is returned beside the state, not instead of it. -/
def composeNextPacket (p : PackerState) (env : PackerEnv) (maxFrameSize : Nat)
    (canSendStreamFrames : Bool) (pathID : Nat)
    (popStream : Nat → List StreamFrame) :
    Option PackErr × List Frame × PackerState :=
  let start : List Frame × Nat :=
    match p.stopWaiting pathID with
    | some swf => ([Frame.stopWaiting swf], env.minLength (Frame.stopWaiting swf))
    | none => ([], 0)
  let start : List Frame × Nat :=
    match p.ackFrame pathID with
    | some af => (start.1 ++ [Frame.ack af], start.2 + env.minLength (Frame.ack af))
    | none => start
  let r := popControlFrames env.minLength maxFrameSize p.controlFrames start.1 start.2
  let p := { p with controlFrames := r.1 }
  let payloadFrames := r.2.1
  let payloadLength := r.2.2
  if maxFrameSize < payloadLength then (some .payloadTooLarge, payloadFrames, p)
  else if !canSendStreamFrames then (none, payloadFrames, p)
  else
    let maxFrameSize := maxFrameSize + 2
    let fs := clearLastDataLen (popStream (maxFrameSize - payloadLength))
    let payloadFrames := payloadFrames ++ fs.map Frame.stream
    let p := { p with controlFrames := p.controlFrames ++ env.blockedFrames.map Frame.blocked }
    (none, payloadFrames, p)

def packCryptoPacket (p : PackerState) (env : PackerEnv) (pth : PathState) :
    Option PackedPacket × Option PackErr × PackerState :=
  let encLevel := env.cryptoEncLevel
  let publicHeader := getPublicHeader p env encLevel pth
  let maxLen := MaxPacketSize - env.cryptoSealOverhead -
    NonForwardSecurePacketSizeReduction - env.publicHeaderLength
  let frames := [Frame.stream (env.popCryptoStreamFrame maxLen)]
  match writeAndSealPacket env publicHeader frames env.cryptoSealOverhead pth with
  | .error e => (none, some e, p)
  | .ok raw =>
    (some { number := publicHeader.packetNumber, raw := raw, frames := frames,
            encryptionLevel := encLevel }, none, p)

/-- The body shared by PackPacket, PackPacketOfPath and PackPacketOfStream,
which differ only in the stream framer pop they call (the source repeats this
body three times verbatim). -/
def packPacketWith (p : PackerState) (env : PackerEnv) (pth : PathState)
    (popStream : Nat → List StreamFrame) :
    Option PackedPacket × Option PackErr × PackerState :=
  if env.hasCryptoStreamFrame then packCryptoPacket p env pth
  else
    let encLevel := env.encLevel
    let publicHeader := getPublicHeader p env encLevel pth
    let publicHeaderLength := env.publicHeaderLength
    let p :=
      match p.stopWaiting pth.pathID with
      | some swf =>
        let swf2 := { swf with packetNumber := publicHeader.packetNumber,
                               packetNumberLen := publicHeader.packetNumberLen }
        { p with stopWaiting := setAt p.stopWaiting pth.pathID (some swf2) }
      | none => p
    let isPing :=
      match p.controlFrames.head? with
      | some Frame.ping => true
      | _ => false
    let composed :=
      if isPing then
        (none, p.controlFrames.take 1, { p with controlFrames := p.controlFrames.drop 1 })
      else
        let maxSize := MaxPacketSize - env.sealOverhead - publicHeaderLength
        composeNextPacket p env maxSize (canSendData p encLevel) pth.pathID popStream
    match composed with
    | (some e, _, p) => (none, some e, p)
    | (none, payloadFrames, p) =>
      if payloadFrames.length = 0 then (none, none, p)
      else if payloadFrames.length = 1 ∧ (p.stopWaiting pth.pathID).isSome then
        (none, none, p)
      else
        let p := { p with stopWaiting := setAt p.stopWaiting pth.pathID none,
                          ackFrame := setAt p.ackFrame pth.pathID none }
        match writeAndSealPacket env publicHeader payloadFrames env.sealOverhead pth with
        | .error e => (none, some e, p)
        | .ok raw =>
          (some { number := publicHeader.packetNumber, raw := raw,
                  frames := payloadFrames, encryptionLevel := encLevel }, none, p)

def PackPacket (p : PackerState) (env : PackerEnv) (pth : PathState) :
    Option PackedPacket × Option PackErr × PackerState :=
  packPacketWith p env pth env.popStreamFrames

def PackPacketOfPath (p : PackerState) (env : PackerEnv) (pth : PathState) :
    Option PackedPacket × Option PackErr × PackerState :=
  packPacketWith p env pth env.popStreamFramesOfPath

def PackPacketOfStream (p : PackerState) (env : PackerEnv) (pth : PathState)
    (streamID : Nat) : Option PackedPacket × Option PackErr × PackerState :=
  packPacketWith p env pth (env.popStreamFramesOfStream streamID)

/-- PackAckPacket returns the packet record beside the error as the source
does (raw empty when sealing failed). -/
def PackAckPacket (p : PackerState) (env : PackerEnv) (pth : PathState) :
    Option PackedPacket × Option PackErr × PackerState :=
  match p.ackFrame pth.pathID with
  | none => (none, some .noAckFrameQueued, p)
  | some af =>
    let encLevel := env.encLevel
    let publicHeader := getPublicHeader p env encLevel pth
    let frames := [Frame.ack af]
    let withSW : List Frame × PackerState :=
      match p.stopWaiting pth.pathID with
      | some swf =>
        (frames ++ [Frame.stopWaiting
            { swf with packetNumber := publicHeader.packetNumber,
                       packetNumberLen := publicHeader.packetNumberLen }],
         { p with stopWaiting := setAt p.stopWaiting pth.pathID none })
      | none => (frames, p)
    let frames := withSW.1
    let p := { withSW.2 with ackFrame := setAt withSW.2.ackFrame pth.pathID none }
    match writeAndSealPacket env publicHeader frames env.sealOverhead pth with
    | .error e =>
      (some { number := publicHeader.packetNumber, raw := [], frames := frames,
              encryptionLevel := encLevel }, some e, p)
    | .ok raw =>
      (some { number := publicHeader.packetNumber, raw := raw, frames := frames,
              encryptionLevel := encLevel }, none, p)

def PackHandshakeRetransmission (p : PackerState) (env : PackerEnv)
    (packet : Packet) (pth : PathState) :
    Option PackedPacket × Option PackErr × PackerState :=
  if packet.encryptionLevel = .forwardSecure then
    (none, some .forwardSecureHandshakeRetransmission, p)
  else if !env.sealerForLevelOk then (none, some .sealerForLevelErr, p)
  else
    match p.stopWaiting pth.pathID with
    | none => (none, some .missingStopWaiting, p)
    | some swf =>
      let publicHeader := getPublicHeader p env packet.encryptionLevel pth
      let swf := { swf with packetNumber := publicHeader.packetNumber,
                            packetNumberLen := publicHeader.packetNumberLen }
      let frames := Frame.stopWaiting swf :: packet.frames
      let p := { p with stopWaiting := setAt p.stopWaiting pth.pathID none }
      match writeAndSealPacket env publicHeader frames env.sealerForLevelOverhead pth with
      | .error e =>
        (some { number := publicHeader.packetNumber, raw := [], frames := frames,
                encryptionLevel := packet.encryptionLevel }, some e, p)
      | .ok raw =>
        (some { number := publicHeader.packetNumber, raw := raw, frames := frames,
                encryptionLevel := packet.encryptionLevel }, none, p)

/-! ## Shared concrete inputs for the scenario theorems and witnesses -/

def envZero : SPHEnv :=
  { now := 0, rttSmoothedRTT := 0, congSmoothedRTT := 0,
    congRetransmissionDelay := 0, delayUntilLost := 0, potentiallyFailed := false }

def sampleStreamFrame : StreamFrame :=
  { streamID := 5, offset := 0, finBit := false, dataLenPresent := true, dataLen := 4 }

def mkPacket (pn len : Nat) : Packet :=
  { packetNumber := pn, frames := [Frame.stream sampleStreamFrame], length := len,
    encryptionLevel := .forwardSecure }

def freshHandler : SPH := NewSentPacketHandler 0

def sentOne : SPH := (SentPacket freshHandler (mkPacket 1 500) envZero).2

def sentOneTwo : SPH := (SentPacket sentOne (mkPacket 2 500) envZero).2

def sentOneTwoThree : SPH := (SentPacket sentOneTwo (mkPacket 3 500) envZero).2

def ackUpToThree : AckFrame :=
  { pathID := 0, largestAcked := 3, lowestAcked := 1, delayTime := 0, ackRanges := [] }

def skipOneFive : SPH := (SentPacket sentOne (mkPacket 5 500) envZero).2

def ackRangesLiteral : AckFrame :=
  { pathID := 0, largestAcked := 5, lowestAcked := 1, delayTime := 0,
    ackRanges := [⟨5, 5⟩, ⟨1, 1⟩] }

def ackRangesCovering : AckFrame :=
  { pathID := 0, largestAcked := 5, lowestAcked := 1, delayTime := 0,
    ackRanges := [⟨5, 5⟩, ⟨2, 2⟩] }

def ackStale : AckFrame :=
  { pathID := 0, largestAcked := 0, lowestAcked := 0, delayTime := 0, ackRanges := [] }

/-! ## Claim C2 -/

/-- Claim C2: on a fresh handler, SentPacket of three retransmittable packets
numbered 1, 2, 3 with Length 500 each succeeds and leaves bytesInFlight 1500;
a subsequent ReceivedAck with LargestAcked 3, LowestAcked 1 and no AckRanges,
carried in packet number 1 (above any previous ACK), returns no error, leaves
the packet history empty, sets bytesInFlight to 0 and LargestAcked to 3. -/
theorem c2_ack_empties_history :
    (SentPacket freshHandler (mkPacket 1 500) envZero).1 = none ∧
    (SentPacket sentOne (mkPacket 2 500) envZero).1 = none ∧
    (SentPacket sentOneTwo (mkPacket 3 500) envZero).1 = none ∧
    sentOneTwoThree.bytesInFlight = 1500 ∧
    (ReceivedAck sentOneTwoThree ackUpToThree 1 0 envZero).1 = none ∧
    (ReceivedAck sentOneTwoThree ackUpToThree 1 0 envZero).2.packetHistory = [] ∧
    (ReceivedAck sentOneTwoThree ackUpToThree 1 0 envZero).2.bytesInFlight = 0 ∧
    (ReceivedAck sentOneTwoThree ackUpToThree 1 0 envZero).2.LargestAcked = 3 := by
  decide

/-! ## Claim C3 -/

/-- Claim C3 counterexample: SentPacket 1 then SentPacket 5 does record the
skipped numbers 2, 3, 4, but a ReceivedAck with LargestAcked 5 and AckRanges
5..5 and 1..1 returns no error rather than ackForSkippedPacket, because those
two ranges cover none of the skipped numbers. -/
theorem c3_counterexample :
    skipOneFive.skippedPackets = [2, 3, 4] ∧
    (ReceivedAck skipOneFive ackRangesLiteral 1 0 envZero).1 = none ∧
    (ReceivedAck skipOneFive ackRangesLiteral 1 0 envZero).1 ≠
      some SPHErr.ackForSkippedPacket := by
  decide

/-- Claim C3 (amended): a ReceivedAck that passes the unsent, duplicate and
stale checks returns ackForSkippedPacket whenever some recorded skipped packet
number is covered by the frame ranges; after SentPacket 1 and SentPacket 5
(skipped numbers 2, 3, 4) this happens for ranges that do cover a skipped
number, for example 5..5 and 2..2, while the ranges 5..5 and 1..1 of the
original scenario cover none of them and the call returns no error. -/
theorem c3_skipped_packet_ack (h : SPH) (ack : AckFrame) (withPN : Nat)
    (t : Int) (env : SPHEnv)
    (hunsent : ack.largestAcked ≤ h.lastSentPacketNumber)
    (hfresh : h.largestReceivedPacketWithAck < withPN)
    (hstale : largestInOrderAcked h < ack.largestAcked)
    (hcov : skippedPacketsAcked h ack = true) :
    (ReceivedAck h ack withPN t env).1 = some SPHErr.ackForSkippedPacket ∧
    skipOneFive.skippedPackets = [2, 3, 4] ∧
    (ReceivedAck skipOneFive ackRangesCovering 1 0 envZero).1 =
      some SPHErr.ackForSkippedPacket := by
  refine ⟨?_, by decide, by decide⟩
  have hstale2 : ¬ ack.largestAcked ≤
      largestInOrderAcked { h with largestReceivedPacketWithAck := withPN } :=
    not_le.mpr hstale
  have hcov2 : skippedPacketsAcked
      { h with largestReceivedPacketWithAck := withPN,
               LargestAcked := ack.largestAcked } ack = true := hcov
  simp only [ReceivedAck, if_neg (not_lt.mpr hunsent), if_neg (not_le.mpr hfresh),
    if_neg hstale2, if_pos hcov2]

/-- Claim C3 witness: the amended theorem applied to the concrete state after
SentPacket 1 and SentPacket 5 and the covering ranges 5..5 and 2..2. -/
theorem c3_witness :
    (ReceivedAck skipOneFive ackRangesCovering 1 0 envZero).1 =
      some SPHErr.ackForSkippedPacket :=
  (c3_skipped_packet_ack skipOneFive ackRangesCovering 1 0 envZero
    (by decide) (by decide) (by decide) (by decide)).1

/-! ## Claim C7 -/

/-- Claim C7: SentPacket fails with packetNumberNotIncreasing exactly when the
packet number does not exceed lastSentPacketNumber; when the number does
increase, it fails with tooManyTrackedSentPackets exactly when tracking one
more packet would push the history plus retransmission queue count above
MaxTrackedSentPackets; and every failing call leaves the handler unchanged. -/
theorem c7_sent_packet_errors (h : SPH) (p : Packet) (env : SPHEnv) :
    ((SentPacket h p env).1 = some SPHErr.packetNumberNotIncreasing ↔
      p.packetNumber ≤ h.lastSentPacketNumber) ∧
    (h.lastSentPacketNumber < p.packetNumber →
      ((SentPacket h p env).1 = some SPHErr.tooManyTrackedSentPackets ↔
        MaxTrackedSentPackets <
          h.retransmissionQueue.length + h.packetHistory.length + 1)) ∧
    ((SentPacket h p env).1.isSome = true → (SentPacket h p env).2 = h) := by
  by_cases h1 : p.packetNumber ≤ h.lastSentPacketNumber
  · simp [SentPacket, h1]
  · by_cases h2 : MaxTrackedSentPackets <
        h.retransmissionQueue.length + h.packetHistory.length + 1
    · simp [SentPacket, h1, h2]
    · simp [SentPacket, h1, h2]

/-! ## Claim C10 -/

/-- Claim C10: a stale ACK (LargestAcked at most largestInOrderAcked) that
passes the unsent and duplicate checks returns no error yet records the
carrying packet number as largestReceivedPacketWithAck, so a later
ReceivedAck carried in a packet number at most that value (and passing the
unsent check, which runs first) fails with duplicateOrOutOfOrderAck. -/
theorem c10_stale_ack_advances_watermark (h : SPH) (ack ack2 : AckFrame)
    (withPN withPN2 : Nat) (t t2 : Int) (env env2 : SPHEnv)
    (hunsent : ack.largestAcked ≤ h.lastSentPacketNumber)
    (hfresh : h.largestReceivedPacketWithAck < withPN)
    (hstale : ack.largestAcked ≤ largestInOrderAcked h)
    (hunsent2 : ack2.largestAcked ≤ h.lastSentPacketNumber)
    (hlow : withPN2 ≤ withPN) :
    (ReceivedAck h ack withPN t env).1 = none ∧
    (ReceivedAck h ack withPN t env).2.largestReceivedPacketWithAck = withPN ∧
    (ReceivedAck (ReceivedAck h ack withPN t env).2 ack2 withPN2 t2 env2).1 =
      some SPHErr.duplicateOrOutOfOrderAck := by
  have hstale2 : ack.largestAcked ≤
      largestInOrderAcked { h with largestReceivedPacketWithAck := withPN } := hstale
  have hr : ReceivedAck h ack withPN t env =
      (none, { h with largestReceivedPacketWithAck := withPN }) := by
    simp only [ReceivedAck, if_neg (not_lt.mpr hunsent), if_neg (not_le.mpr hfresh),
      if_pos hstale2]
  refine ⟨by rw [hr], by rw [hr], ?_⟩
  rw [hr]
  simp only [ReceivedAck, if_neg (not_lt.mpr hunsent2), if_pos hlow]

/-- Claim C10 witness: with one packet in flight, an ACK with LargestAcked 0
carried in packet 7 is stale (largestInOrderAcked is 0), returns no error and
raises the watermark to 7; the same ACK carried in packet 5 then fails with
duplicateOrOutOfOrderAck. -/
theorem c10_witness :
    (ReceivedAck sentOne ackStale 7 0 envZero).1 = none ∧
    (ReceivedAck sentOne ackStale 7 0 envZero).2.largestReceivedPacketWithAck = 7 ∧
    (ReceivedAck (ReceivedAck sentOne ackStale 7 0 envZero).2 ackStale 5 0 envZero).1 =
      some SPHErr.duplicateOrOutOfOrderAck :=
  c10_stale_ack_advances_watermark sentOne ackStale ackStale 7 5 0 0 envZero envZero
    (by decide) (by decide) (by decide) (by decide) (by decide)

/-! ## Claim C5 -/

/-- The RTO timeout exactly as the claim words it: the maximum of the
congestion retransmission delay and 200 ms, shifted left by rtoCount and
clamped at 60 s.  Stated for comparison with computeRTOTimeout, which
additionally substitutes a 500 ms default when the congestion delay is 0. -/
def claimedRTOTimeout (h : SPH) (env : SPHEnv) : Int :=
  min (int64Shl (max (env.congRetransmissionDelay : Int) minRTOTimeout) h.rtoCount)
    maxRTOTimeout

/-- Claim C5 counterexample: with one packet in flight, no loss time, TLP not
applicable and a zero congestion retransmission delay, the re-armed alarm is
lastSentTime plus 500 ms (the default RTO), not lastSentTime plus the claimed
max(RetransmissionDelay, 200 ms) shifted and clamped, which gives 200 ms. -/
theorem c5_counterexample :
    (updateLossDetectionAlarm sentOne envZero).alarm = some 500000000 ∧
    sentOne.lastSentTime +
      max (claimedRTOTimeout sentOne envZero) minRetransmissionTime = 200000000 ∧
    (updateLossDetectionAlarm sentOne envZero).alarm ≠
      some (sentOne.lastSentTime +
        max (claimedRTOTimeout sentOne envZero) minRetransmissionTime) := by
  refine ⟨by decide, by decide, by decide⟩

/-- Claim C5 (amended): whenever the alarm is re-armed with at least one
packet in the history, no lossTime set and the TLP branch not applicable
(smoothedRTT is 0 or tlpCount at least 2), the alarm equals lastSentTime plus
max(RTO, minRetransmissionTime), where RTO starts from
congestion.RetransmissionDelay with a 500 ms default substituted when that
delay is 0, is raised to at least 200 ms, shifted left by rtoCount as a 64
bit value, and clamped at 60 s. -/
theorem c5_rto_alarm (h : SPH) (env : SPHEnv)
    (hne : h.packetHistory ≠ [])
    (hlt : h.lossTime = none)
    (htlp : env.rttSmoothedRTT = 0 ∨ maxTailLossProbes ≤ h.tlpCount) :
    (updateLossDetectionAlarm h env).alarm =
      some (h.lastSentTime +
        max (min (int64Shl
                (max (if (env.congRetransmissionDelay : Int) = 0 then defaultRTOTimeout
                      else (env.congRetransmissionDelay : Int)) minRTOTimeout)
                h.rtoCount)
              maxRTOTimeout)
          minRetransmissionTime) := by
  have hlen : ¬ h.packetHistory.length = 0 := by
    simpa [List.length_eq_zero] using hne
  have hlt2 : ¬ h.lossTime ≠ none := by simpa using hlt
  have htlp2 : ¬ (env.rttSmoothedRTT ≠ 0 ∧ h.tlpCount < maxTailLossProbes) := by
    rcases htlp with h1 | h1
    · simp [h1]
    · intro hc
      exact absurd hc.2 (not_lt.mpr h1)
  simp only [updateLossDetectionAlarm, if_neg hlen, if_neg hlt2, if_neg htlp2,
    computeRTOTimeout]

/-- Claim C5 witness: the amended theorem applied to the handler with one
packet in flight and the all-zero environment; the alarm is 0 + max(min(
max(500 ms, 200 ms) shifted by 0, 60 s), 200 ms) = 500 ms. -/
theorem c5_witness :
    (updateLossDetectionAlarm sentOne envZero).alarm = some 500000000 := by
  rw [c5_rto_alarm sentOne envZero (by decide) (by decide) (Or.inl (by decide))]
  decide

/-! ## Claim C1: the bytes-in-flight accounting invariant

The invariant is proved over every sequence of handler operations.  Removal
from the history is by node identity in the source; the model removes by
packet number, which coincides because the history is strictly ascending —
that strict order is part of the invariant and proved along with it. -/

def sumLengths (l : List Packet) : Nat := (l.map Packet.length).sum

def PNsorted (l : List Packet) : Prop :=
  l.Pairwise fun a b => a.packetNumber < b.packetNumber

/-- Well-formedness of a handler state: the history is strictly ascending in
packet number, bounded by the last sent number, and bytesInFlight is the sum
of the history lengths. -/
structure HandlerInv (h : SPH) : Prop where
  sorted : PNsorted h.packetHistory
  bounded : ∀ p ∈ h.packetHistory, p.packetNumber ≤ h.lastSentPacketNumber
  bytes : h.bytesInFlight = sumLengths h.packetHistory

theorem sumLengths_cons (p : Packet) (l : List Packet) :
    sumLengths (p :: l) = p.length + sumLengths l := by
  simp [sumLengths]

theorem sumLengths_append (l1 l2 : List Packet) :
    sumLengths (l1 ++ l2) = sumLengths l1 + sumLengths l2 := by
  simp [sumLengths]

theorem removeByPN_sublist (l : List Packet) (n : Nat) : (removeByPN l n).Sublist l := by
  induction l with
  | nil => simp [removeByPN]
  | cons q rest ih =>
    simp only [removeByPN]
    split
    · exact List.sublist_cons_self q rest
    · exact ih.cons₂ q

theorem PNsorted_removeByPN (l : List Packet) (n : Nat) (hsort : PNsorted l) :
    PNsorted (removeByPN l n) :=
  hsort.sublist (removeByPN_sublist l n)

theorem sumLengths_removeByPN (l : List Packet) (p : Packet)
    (hmem : p ∈ l) (hsort : PNsorted l) :
    sumLengths l = p.length + sumLengths (removeByPN l p.packetNumber) := by
  induction l with
  | nil => cases hmem
  | cons q rest ih =>
    rcases List.mem_cons.mp hmem with rfl | hmem2
    · simp [removeByPN, sumLengths_cons]
    · have hq : q.packetNumber < p.packetNumber :=
        (List.pairwise_cons.mp hsort).1 p hmem2
      have hne : ¬ q.packetNumber = p.packetNumber := by omega
      simp only [removeByPN, if_neg hne, sumLengths_cons]
      rw [ih hmem2 (List.pairwise_cons.mp hsort).2]
      omega

theorem sublist_removeByPN {p : Packet} {rest l : List Packet}
    (hsort : PNsorted l) (hsub : (p :: rest).Sublist l) :
    rest.Sublist (removeByPN l p.packetNumber) := by
  induction l with
  | nil => cases hsub
  | cons q l2 ih =>
    cases hsub with
    | cons₂ _ hs => simpa [removeByPN] using hs
    | cons _ hs =>
      have hpmem : p ∈ l2 := hs.subset (List.mem_cons_self p rest)
      have hq : q.packetNumber < p.packetNumber :=
        (List.pairwise_cons.mp hsort).1 p hpmem
      have hne : ¬ q.packetNumber = p.packetNumber := by omega
      simp only [removeByPN, if_neg hne]
      exact (ih (List.pairwise_cons.mp hsort).2 hs).cons q

/-- Preservation of the invariant by a fold of history-removal steps:
onPacketAcked, queuePacketForRetransmission and queueRTO all remove the
processed packet from the history and subtract its length from
bytesInFlight, leaving lastSentPacketNumber alone. -/
theorem foldRemove_inv (step : SPH → Packet → SPH)
    (hH : ∀ s p, (step s p).packetHistory = removeByPN s.packetHistory p.packetNumber)
    (hB : ∀ s p, (step s p).bytesInFlight = s.bytesInFlight - p.length)
    (hL : ∀ s p, (step s p).lastSentPacketNumber = s.lastSentPacketNumber) :
    ∀ (acked : List Packet) (h : SPH),
      acked.Sublist h.packetHistory → PNsorted h.packetHistory →
      h.bytesInFlight = sumLengths h.packetHistory →
      PNsorted (acked.foldl step h).packetHistory ∧
      ((acked.foldl step h).packetHistory).Sublist h.packetHistory ∧
      (acked.foldl step h).bytesInFlight =
        sumLengths (acked.foldl step h).packetHistory ∧
      (acked.foldl step h).lastSentPacketNumber = h.lastSentPacketNumber := by
  intro acked
  induction acked with
  | nil =>
    intro h _ hs hb
    exact ⟨hs, List.Sublist.refl _, hb, rfl⟩
  | cons a rest ih =>
    intro h hsub hsort hbytes
    have hamem : a ∈ h.packetHistory := hsub.subset (List.mem_cons_self a rest)
    have hsum := sumLengths_removeByPN h.packetHistory a hamem hsort
    have hsubH : ((step h a).packetHistory).Sublist h.packetHistory := by
      rw [hH]; exact removeByPN_sublist _ _
    have hs1 : PNsorted (step h a).packetHistory := by
      rw [hH]; exact PNsorted_removeByPN _ _ hsort
    have hsub1 : rest.Sublist (step h a).packetHistory := by
      rw [hH]; exact sublist_removeByPN hsort hsub
    have hb1 : (step h a).bytesInFlight = sumLengths (step h a).packetHistory := by
      rw [hH, hB, hbytes, hsum]
      omega
    rw [List.foldl_cons]
    obtain ⟨r1, r2, r3, r4⟩ := ih (step h a) hsub1 hs1 hb1
    exact ⟨r1, r2.trans hsubH, r3, r4.trans (hL h a)⟩

/-- Transport of the invariant along equal history, bytes and last-sent
fields (record updates that touch none of them). -/
theorem handlerInv_of_fields {h : SPH} (hinv : HandlerInv h) {h2 : SPH}
    (hH : h2.packetHistory = h.packetHistory)
    (hB : h2.bytesInFlight = h.bytesInFlight)
    (hL : h2.lastSentPacketNumber = h.lastSentPacketNumber) : HandlerInv h2 := by
  refine ⟨?_, ?_, ?_⟩
  · rw [hH]; exact hinv.sorted
  · intro p hp
    rw [hL]
    exact hinv.bounded p (by rw [hH] at hp; exact hp)
  · rw [hB, hH]; exact hinv.bytes

theorem handlerInv_foldRemove (step : SPH → Packet → SPH)
    (hH : ∀ s p, (step s p).packetHistory = removeByPN s.packetHistory p.packetNumber)
    (hB : ∀ s p, (step s p).bytesInFlight = s.bytesInFlight - p.length)
    (hL : ∀ s p, (step s p).lastSentPacketNumber = s.lastSentPacketNumber)
    (acked : List Packet) {h : SPH} (hinv : HandlerInv h)
    (hsub : acked.Sublist h.packetHistory) : HandlerInv (acked.foldl step h) := by
  obtain ⟨r1, r2, r3, r4⟩ :=
    foldRemove_inv step hH hB hL acked h hsub hinv.sorted hinv.bytes
  refine ⟨r1, ?_, r3⟩
  intro p hp
  rw [r4]
  exact hinv.bounded p (r2.subset hp)

theorem determineAux_sublist (lo la : Nat) (hm : Bool) (ranges : List AckRange) :
    ∀ (l : List Packet) (idx : Nat) (r : List Packet),
      determineAux lo la hm ranges l idx = .ok r → r.Sublist l := by
  intro l
  induction l with
  | nil =>
    intro idx r hr
    simp only [determineAux] at hr
    cases hr
    exact List.Sublist.refl _
  | cons packet rest ih =>
    intro idx r hr
    simp only [determineAux] at hr
    split at hr
    · exact (ih _ _ hr).cons _
    · split at hr
      · cases hr
        exact List.nil_sublist _
      · split at hr
        · split at hr
          · split at hr
            · cases hr
            · split at hr
              · cases hr
              · next heq =>
                cases hr
                exact (ih _ _ heq).cons₂ _
          · exact (ih _ _ hr).cons _
        · split at hr
          · cases hr
          · next heq =>
            cases hr
            exact (ih _ _ heq).cons₂ _

theorem detectLostAux_sublist (la : Nat) (now d : Int) :
    ∀ (l : List Packet) (lt : Option Int), ((detectLostAux la now d l lt).1).Sublist l := by
  intro l
  induction l with
  | nil =>
    intro lt
    simp [detectLostAux]
  | cons packet rest ih =>
    intro lt
    simp only [detectLostAux]
    split
    · exact List.nil_sublist _
    · split
      · exact (ih lt).cons₂ packet
      · split
        · exact (ih _).cons packet
        · exact (ih lt).cons packet

theorem setInflightCollect_sublist (la : Nat) :
    ∀ l : List Packet, (setInflightCollect la l).Sublist l := by
  intro l
  induction l with
  | nil => simp [setInflightCollect]
  | cons packet rest ih =>
    simp only [setInflightCollect]
    split
    · exact List.nil_sublist _
    · exact ih.cons₂ packet

theorem queuePacketForRetransmission_inv (h : SPH) (p : Packet)
    (hmem : p ∈ h.packetHistory) (hinv : HandlerInv h) :
    HandlerInv (queuePacketForRetransmission h p) :=
  handlerInv_foldRemove queuePacketForRetransmission
    (fun _ _ => rfl) (fun _ _ => rfl) (fun _ _ => rfl)
    [p] hinv (List.singleton_sublist.mpr hmem)

theorem queueRTO_inv (h : SPH) (p : Packet)
    (hmem : p ∈ h.packetHistory) (hinv : HandlerInv h) :
    HandlerInv (queueRTO h p) :=
  handlerInv_of_fields (queuePacketForRetransmission_inv h p hmem hinv) rfl rfl rfl

theorem updateLossDetectionAlarm_inv (h : SPH) (env : SPHEnv)
    (hinv : HandlerInv h) : HandlerInv (updateLossDetectionAlarm h env) := by
  unfold updateLossDetectionAlarm
  split
  · exact handlerInv_of_fields hinv rfl rfl rfl
  · split
    · exact handlerInv_of_fields hinv rfl rfl rfl
    · split
      · exact handlerInv_of_fields hinv rfl rfl rfl
      · exact handlerInv_of_fields hinv rfl rfl rfl

theorem detectLostPackets_inv (h : SPH) (env : SPHEnv)
    (hinv : HandlerInv h) : HandlerInv (detectLostPackets h env) := by
  show HandlerInv
    ((detectLostAux h.LargestAcked env.now env.delayUntilLost h.packetHistory none).1.foldl
      queuePacketForRetransmission
      { h with
        lossTime := (detectLostAux h.LargestAcked env.now env.delayUntilLost h.packetHistory none).2
        losses := h.losses +
          (detectLostAux h.LargestAcked env.now env.delayUntilLost h.packetHistory none).1.length })
  exact handlerInv_foldRemove queuePacketForRetransmission
    (fun _ _ => rfl) (fun _ _ => rfl) (fun _ _ => rfl) _
    (handlerInv_of_fields hinv rfl rfl rfl)
    (detectLostAux_sublist _ _ _ _ _)

theorem SetInflightAsLost_inv (h : SPH) (hinv : HandlerInv h) :
    HandlerInv (SetInflightAsLost h) := by
  show HandlerInv
    ((setInflightCollect h.LargestAcked h.packetHistory).foldl
      queuePacketForRetransmission
      { h with losses := h.losses +
          (setInflightCollect h.LargestAcked h.packetHistory).length })
  exact handlerInv_foldRemove queuePacketForRetransmission
    (fun _ _ => rfl) (fun _ _ => rfl) (fun _ _ => rfl) _
    (handlerInv_of_fields hinv rfl rfl rfl)
    (setInflightCollect_sublist _ _)

theorem SentPacket_inv (h : SPH) (p : Packet) (env : SPHEnv)
    (hinv : HandlerInv h) : HandlerInv (SentPacket h p env).2 := by
  by_cases h1 : p.packetNumber ≤ h.lastSentPacketNumber
  · simp only [SentPacket, if_pos h1]
    exact hinv
  · by_cases h2 : MaxTrackedSentPackets <
        h.retransmissionQueue.length + h.packetHistory.length + 1
    · simp only [SentPacket, if_neg h1, if_pos h2]
      exact hinv
    · simp only [SentPacket, if_neg h1, if_neg h2]
      apply updateLossDetectionAlarm_inv
      split
      · -- retransmittable: the packet is appended to the history
        refine ⟨?_, ?_, ?_⟩ <;> dsimp only
        · simp only [PNsorted, List.pairwise_append]
          refine ⟨hinv.sorted, List.pairwise_singleton _ _, ?_⟩
          intro a ha b hb
          rw [List.mem_singleton.mp hb]
          have := hinv.bounded a ha
          simp only [not_le] at h1
          dsimp only
          omega
        · intro q hq
          rcases List.mem_append.mp hq with hq2 | hq2
          · have := hinv.bounded q hq2
            simp only [not_le] at h1
            omega
          · rw [List.mem_singleton.mp hq2]
        · rw [sumLengths_append, ← hinv.bytes]
          simp [sumLengths]
      · -- not retransmittable: history and bytes untouched, lastSent raised
        refine ⟨hinv.sorted, ?_, hinv.bytes⟩
        intro q hq
        have := hinv.bounded q hq
        simp only [not_le] at h1
        dsimp only
        omega

theorem ReceivedAck_inv (h : SPH) (ack : AckFrame) (w : Nat) (t : Int)
    (env : SPHEnv) (hinv : HandlerInv h) :
    HandlerInv (ReceivedAck h ack w t env).2 := by
  simp only [ReceivedAck]
  split
  · exact hinv
  split
  · exact hinv
  have hinv1 : HandlerInv { h with largestReceivedPacketWithAck := w } :=
    handlerInv_of_fields hinv rfl rfl rfl
  split
  · exact hinv1
  have hinv2 : HandlerInv
      { h with largestReceivedPacketWithAck := w, LargestAcked := ack.largestAcked } :=
    handlerInv_of_fields hinv rfl rfl rfl
  split
  · exact hinv2
  split
  · exact hinv2
  · next ackedPackets heq =>
    have hsub : ackedPackets.Sublist h.packetHistory :=
      determineAux_sublist _ _ _ _ _ _ _ heq
    have hinv3 := handlerInv_foldRemove onPacketAcked
      (fun _ _ => rfl) (fun _ _ => rfl) (fun _ _ => rfl) ackedPackets hinv2 hsub
    have hinv4 := detectLostPackets_inv _ env hinv3
    have hinv5 := updateLossDetectionAlarm_inv _ env hinv4
    exact handlerInv_of_fields hinv5 rfl rfl rfl

theorem ReceivedClosePath_inv (h : SPH) (f : ClosePathFrame) (w : Nat) (t : Int)
    (hinv : HandlerInv h) : HandlerInv (ReceivedClosePath h f w t).2 := by
  simp only [ReceivedClosePath]
  split
  · exact hinv
  split
  · exact hinv
  have hinv1 : HandlerInv { h with largestReceivedPacketWithAck := w } :=
    handlerInv_of_fields hinv rfl rfl rfl
  split
  · exact hinv1
  split
  · exact hinv1
  · next ackedPackets heq =>
    have hsub : ackedPackets.Sublist h.packetHistory :=
      determineAux_sublist _ _ _ _ _ _ _ heq
    have hinv3 := handlerInv_foldRemove onPacketAcked
      (fun _ _ => rfl) (fun _ _ => rfl) (fun _ _ => rfl) ackedPackets hinv1 hsub
    have hinv4 := SetInflightAsLost_inv _ hinv3
    exact handlerInv_of_fields hinv4 rfl rfl rfl

theorem retransmitTLP_inv (h : SPH) (hinv : HandlerInv h) :
    HandlerInv (retransmitTLP h) := by
  unfold retransmitTLP
  split
  · next p heq =>
    exact queuePacketForRetransmission_inv h p (List.mem_of_mem_getLast? heq) hinv
  · exact hinv

theorem retransmitOldestPacket_inv (h : SPH) (hinv : HandlerInv h) :
    HandlerInv (retransmitOldestPacket h) := by
  unfold retransmitOldestPacket
  split
  · next p rest heq =>
    exact queueRTO_inv h p (by rw [heq]; exact List.mem_cons_self p rest) hinv
  · exact hinv

theorem retransmitAllAux_inv :
    ∀ (fuel : Nat) (h : SPH), HandlerInv h → HandlerInv (retransmitAllAux fuel h) := by
  intro fuel
  induction fuel with
  | zero => intro h hinv; exact hinv
  | succ n ih =>
    intro h hinv
    unfold retransmitAllAux
    split
    · exact hinv
    · next p rest heq =>
      exact ih _ (queueRTO_inv h p (by rw [heq]; exact List.mem_cons_self p rest) hinv)

theorem OnAlarm_inv (h : SPH) (env : SPHEnv) (hinv : HandlerInv h) :
    HandlerInv (OnAlarm h env) := by
  unfold OnAlarm
  split
  · exact handlerInv_of_fields hinv rfl rfl rfl
  apply updateLossDetectionAlarm_inv
  split
  · exact detectLostPackets_inv h env hinv
  · split
    · exact handlerInv_of_fields (retransmitTLP_inv h hinv) rfl rfl rfl
    · have hb : HandlerInv (if env.potentiallyFailed then retransmitAllPackets h
          else retransmitOldestTwoPackets h) := by
        split
        · exact retransmitAllAux_inv _ _ hinv
        · exact retransmitOldestPacket_inv _ (retransmitOldestPacket_inv h hinv)
      exact handlerInv_of_fields hb rfl rfl rfl

theorem DequeuePacketForRetransmission_inv (h : SPH) (hinv : HandlerInv h) :
    HandlerInv (DequeuePacketForRetransmission h).2 := by
  unfold DequeuePacketForRetransmission
  split
  · exact hinv
  · exact handlerInv_of_fields hinv rfl rfl rfl

/-- One observable operation on a sent-packet handler, with every external
input it consumes. -/
inductive SPHOp where
  | sent (packet : Packet) (env : SPHEnv)
  | receivedAck (ack : AckFrame) (withPN : Nat) (t : Int) (env : SPHEnv)
  | receivedClosePath (f : ClosePathFrame) (withPN : Nat) (t : Int)
  | onAlarm (env : SPHEnv)
  | dequeue

def applyOp (h : SPH) : SPHOp → SPH
  | .sent p env => (SentPacket h p env).2
  | .receivedAck ack w t env => (ReceivedAck h ack w t env).2
  | .receivedClosePath f w t => (ReceivedClosePath h f w t).2
  | .onAlarm env => OnAlarm h env
  | .dequeue => (DequeuePacketForRetransmission h).2

theorem applyOp_inv (h : SPH) (op : SPHOp) (hinv : HandlerInv h) :
    HandlerInv (applyOp h op) := by
  cases op with
  | sent p env => exact SentPacket_inv h p env hinv
  | receivedAck ack w t env => exact ReceivedAck_inv h ack w t env hinv
  | receivedClosePath f w t => exact ReceivedClosePath_inv h f w t hinv
  | onAlarm env => exact OnAlarm_inv h env hinv
  | dequeue => exact DequeuePacketForRetransmission_inv h hinv

theorem foldOps_inv (ops : List SPHOp) (h : SPH) (hinv : HandlerInv h) :
    HandlerInv (ops.foldl applyOp h) := by
  induction ops generalizing h with
  | nil => exact hinv
  | cons op rest ih => exact ih _ (applyOp_inv h op hinv)

theorem newHandler_inv (pathID : Nat) : HandlerInv (NewSentPacketHandler pathID) :=
  ⟨List.Pairwise.nil, fun p hp => absurd hp (List.not_mem_nil p), rfl⟩

/-- Claim C1: after every sequence of SentPacket, ReceivedAck,
ReceivedClosePath, OnAlarm and DequeuePacketForRetransmission operations on a
fresh handler, bytesInFlight equals the sum of the Length fields of the
packets in the history; since the invariant is re-established after each
single operation and every history removal goes through onPacketAcked or
queuePacketForRetransmission, each removed packet decrements bytesInFlight by
its Length exactly once. -/
theorem c1_bytes_in_flight_invariant (ops : List SPHOp) (pathID : Nat) :
    (ops.foldl applyOp (NewSentPacketHandler pathID)).bytesInFlight =
      sumLengths (ops.foldl applyOp (NewSentPacketHandler pathID)).packetHistory :=
  (foldOps_inv ops _ (newHandler_inv pathID)).bytes

/-! ## Claim C4: what ReceivedClosePath marks as lost

SetInflightAsLost walks the history up to the HANDLER LargestAcked field —
which ReceivedClosePath never updates from the frame — so the claim, stated
with the frame LargestAcked, fails; the amended theorem uses the stored
value. -/

theorem queueFold_queue :
    ∀ (xs : List Packet) (s : SPH),
      (xs.foldl queuePacketForRetransmission s).retransmissionQueue =
        s.retransmissionQueue ++ xs := by
  intro xs
  induction xs with
  | nil => intro s; simp
  | cons x rest ih =>
    intro s
    rw [List.foldl_cons, ih]
    simp [queuePacketForRetransmission]

theorem foldOnPacketAcked_fields (acked : List Packet) :
    ∀ s : SPH,
      (acked.foldl onPacketAcked s).retransmissionQueue = s.retransmissionQueue ∧
      (acked.foldl onPacketAcked s).LargestAcked = s.LargestAcked := by
  induction acked with
  | nil => intro s; exact ⟨rfl, rfl⟩
  | cons a rest ih =>
    intro s
    rw [List.foldl_cons]
    exact ih (onPacketAcked s a)

theorem setInflightCollect_mem (la : Nat) :
    ∀ l : List Packet, ∀ p ∈ setInflightCollect la l, p ∈ l ∧ p.packetNumber ≤ la := by
  intro l
  induction l with
  | nil => intro p hp; cases hp
  | cons packet rest ih =>
    simp only [setInflightCollect]
    split
    · intro p hp; cases hp
    · next hgt =>
      intro p hp
      rcases List.mem_cons.mp hp with rfl | hp2
      · simp only [not_lt] at hgt
        exact ⟨List.mem_cons_self _ _, hgt⟩
      · obtain ⟨m, b⟩ := ih p hp2
        exact ⟨List.mem_cons_of_mem _ m, b⟩

theorem setInflightFold_mem (la : Nat) :
    ∀ (l : List Packet) (s : SPH), s.packetHistory = l → PNsorted l →
      ∀ p ∈ ((setInflightCollect la l).foldl queuePacketForRetransmission s).packetHistory,
        la < p.packetNumber := by
  intro l
  induction l with
  | nil =>
    intro s hs _ p hp
    simp only [setInflightCollect, List.foldl_nil] at hp
    rw [hs] at hp
    cases hp
  | cons packet rest ih =>
    intro s hs hsort p hp
    simp only [setInflightCollect] at hp
    by_cases hgt : la < packet.packetNumber
    · rw [if_pos hgt] at hp
      simp only [List.foldl_nil] at hp
      rw [hs] at hp
      rcases List.mem_cons.mp hp with rfl | hp2
      · exact hgt
      · have := (List.pairwise_cons.mp hsort).1 p hp2
        omega
    · rw [if_neg hgt] at hp
      rw [List.foldl_cons] at hp
      refine ih (queuePacketForRetransmission s packet) ?_ (List.pairwise_cons.mp hsort).2 p hp
      show removeByPN s.packetHistory packet.packetNumber = rest
      rw [hs]
      simp [removeByPN]

theorem setInflightAsLost_hist_mem (s : SPH) (hsort : PNsorted s.packetHistory) :
    ∀ p ∈ (SetInflightAsLost s).packetHistory, s.LargestAcked < p.packetNumber := by
  intro p hp
  have hp2 : p ∈ ((setInflightCollect s.LargestAcked s.packetHistory).foldl
      queuePacketForRetransmission
      { s with losses := s.losses +
          (setInflightCollect s.LargestAcked s.packetHistory).length }).packetHistory := hp
  exact setInflightFold_mem s.LargestAcked s.packetHistory
    { s with losses := s.losses +
        (setInflightCollect s.LargestAcked s.packetHistory).length } rfl hsort p hp2

theorem setInflightAsLost_queue (s : SPH) :
    (SetInflightAsLost s).retransmissionQueue =
      s.retransmissionQueue ++ setInflightCollect s.LargestAcked s.packetHistory := by
  show ((setInflightCollect s.LargestAcked s.packetHistory).foldl
      queuePacketForRetransmission
      { s with losses := s.losses +
          (setInflightCollect s.LargestAcked s.packetHistory).length }).retransmissionQueue = _
  rw [queueFold_queue]

theorem removeByPN_mem_ne (p : Packet) (n : Nat) :
    ∀ l : List Packet, p ∈ l → p.packetNumber ≠ n → p ∈ removeByPN l n := by
  intro l
  induction l with
  | nil => intro hp _; cases hp
  | cons q rest ih =>
    intro hp hne
    simp only [removeByPN]
    split
    · next hq =>
      rcases List.mem_cons.mp hp with rfl | hp2
      · exact absurd hq hne
      · exact hp2
    · rcases List.mem_cons.mp hp with rfl | hp2
      · exact List.mem_cons_self _ _
      · exact List.mem_cons_of_mem _ (ih hp2 hne)

theorem foldOnPacketAcked_mem (p : Packet) :
    ∀ (acked : List Packet) (s : SPH), p ∈ s.packetHistory →
      (∀ a ∈ acked, a.packetNumber ≠ p.packetNumber) →
      p ∈ (acked.foldl onPacketAcked s).packetHistory := by
  intro acked
  induction acked with
  | nil => intro s hp _; simpa using hp
  | cons a rest ih =>
    intro s hp hne
    rw [List.foldl_cons]
    refine ih (onPacketAcked s a) ?_ fun b hb => hne b (List.mem_cons_of_mem _ hb)
    show p ∈ removeByPN s.packetHistory a.packetNumber
    exact removeByPN_mem_ne p a.packetNumber s.packetHistory hp
      fun he => hne a (List.mem_cons_self _ _) he.symm

theorem PNsorted_pn_inj :
    ∀ l : List Packet, PNsorted l → ∀ p ∈ l, ∀ q ∈ l,
      p.packetNumber = q.packetNumber → p = q := by
  intro l
  induction l with
  | nil => intro _ p hp; cases hp
  | cons x rest ih =>
    intro hsort p hp q hq heq
    obtain ⟨hx, hrest⟩ := List.pairwise_cons.mp hsort
    rcases List.mem_cons.mp hp with rfl | hp2 <;> rcases List.mem_cons.mp hq with rfl | hq2
    · rfl
    · exact absurd heq (by have := hx q hq2; omega)
    · exact absurd heq (by have := hx p hp2; omega)
    · exact ih hrest p hp2 q hq2 heq

theorem setInflightCollect_complete (la : Nat) :
    ∀ l : List Packet, PNsorted l → ∀ p ∈ l, p.packetNumber ≤ la →
      p ∈ setInflightCollect la l := by
  intro l
  induction l with
  | nil => intro _ p hp; cases hp
  | cons x rest ih =>
    intro hsort p hp hple
    obtain ⟨hx, hrest⟩ := List.pairwise_cons.mp hsort
    simp only [setInflightCollect]
    rcases List.mem_cons.mp hp with rfl | hp2
    · rw [if_neg (by omega)]
      exact List.mem_cons_self _ _
    · have hxp := hx p hp2
      rw [if_neg (by omega)]
      exact List.mem_cons_of_mem _ (ih hrest p hp2 hple)

/-- Claim C4 counterexample: with packets 1 and 2 in flight (and the handler
LargestAcked still 0), a successful ReceivedClosePath whose frame has
LargestAcked 2 and LowestAcked 2 acks packet 2 but does NOT queue packet 1 as
lost: packet 1, with number at most the frame LargestAcked, stays in the
history and the retransmission queue stays empty, because SetInflightAsLost
compares against the stored LargestAcked (0), which ReceivedClosePath never
updates from the frame. -/
theorem c4_counterexample :
    (ReceivedClosePath sentOneTwo ⟨0, 2, 2, []⟩ 1 0).1 = none ∧
    ((ReceivedClosePath sentOneTwo ⟨0, 2, 2, []⟩ 1 0).2.packetHistory.map
      Packet.packetNumber) = [1] ∧
    (ReceivedClosePath sentOneTwo ⟨0, 2, 2, []⟩ 1 0).2.retransmissionQueue = [] ∧
    (ReceivedClosePath sentOneTwo ⟨0, 2, 2, []⟩ 1 0).2.bytesInFlight = 500 := by
  decide

/-- Claim C4 (amended): after a successful ReceivedClosePath call on a
well-formed handler, every packet remaining in the history has a packet
number above the PRE-CALL handler LargestAcked (which the call does not
update from the frame); the packets removed as lost are appended to the
retransmission queue and all come from the old history with numbers at most
that stored LargestAcked; conversely every old history packet with number at
most that stored LargestAcked is either newly acked by the frame or appended
to the queue as lost; and bytesInFlight equals the sum of the lengths of the
remaining history (each removal decremented it once). -/
theorem c4_close_path_marks_lost (h : SPH) (f : ClosePathFrame) (w : Nat) (t : Int)
    (hinv : HandlerInv h)
    (hok : (ReceivedClosePath h f w t).1 = none) :
    (∀ p ∈ (ReceivedClosePath h f w t).2.packetHistory,
      h.LargestAcked < p.packetNumber) ∧
    (∃ acked lost,
      determineNewlyAckedPacketsClosePath h f = .ok acked ∧
      (ReceivedClosePath h f w t).2.retransmissionQueue =
        h.retransmissionQueue ++ lost ∧
      (∀ p ∈ lost, p ∈ h.packetHistory ∧ p.packetNumber ≤ h.LargestAcked) ∧
      (∀ p ∈ h.packetHistory, p.packetNumber ≤ h.LargestAcked →
        p ∈ acked ∨ p ∈ lost)) ∧
    (ReceivedClosePath h f w t).2.bytesInFlight =
      sumLengths (ReceivedClosePath h f w t).2.packetHistory := by
  by_cases h1 : h.lastSentPacketNumber < f.largestAcked
  · simp [ReceivedClosePath, h1] at hok
  by_cases h2 : w ≤ h.largestReceivedPacketWithAck
  · simp [ReceivedClosePath, h1, h2] at hok
  by_cases h3 : skippedPacketsAckedClosePath
      { h with largestReceivedPacketWithAck := w } f = true
  · simp [ReceivedClosePath, h1, h2, h3] at hok
  rcases h4 : determineNewlyAckedPacketsClosePath
      { h with largestReceivedPacketWithAck := w } f with e | acked
  · simp [ReceivedClosePath, h1, h2, h3, h4] at hok
  have heq : ReceivedClosePath h f w t =
      (none, garbageCollectSkippedPackets (SetInflightAsLost
        (acked.foldl onPacketAcked { h with largestReceivedPacketWithAck := w }))) := by
    simp [ReceivedClosePath, h1, h2, h3, h4]
  have hinvp : HandlerInv { h with largestReceivedPacketWithAck := w } :=
    handlerInv_of_fields hinv rfl rfl rfl
  have hsub : acked.Sublist h.packetHistory := determineAux_sublist _ _ _ _ _ _ _ h4
  obtain ⟨hs, hsubH, hb, hl⟩ := foldRemove_inv onPacketAcked
    (fun _ _ => rfl) (fun _ _ => rfl) (fun _ _ => rfl) acked
    { h with largestReceivedPacketWithAck := w } hsub hinvp.sorted hinvp.bytes
  obtain ⟨hq, hla⟩ := foldOnPacketAcked_fields acked
    { h with largestReceivedPacketWithAck := w }
  rw [heq]
  refine ⟨?_, ?_, ?_⟩
  · intro p hp
    have := setInflightAsLost_hist_mem
      (acked.foldl onPacketAcked { h with largestReceivedPacketWithAck := w }) hs p hp
    rwa [hla] at this
  · refine ⟨acked, setInflightCollect
        (acked.foldl onPacketAcked { h with largestReceivedPacketWithAck := w }).LargestAcked
        (acked.foldl onPacketAcked { h with largestReceivedPacketWithAck := w }).packetHistory,
      h4, ?_, ?_, ?_⟩
    · have h5 : (garbageCollectSkippedPackets (SetInflightAsLost
          (acked.foldl onPacketAcked { h with largestReceivedPacketWithAck := w }))).retransmissionQueue =
          (SetInflightAsLost
            (acked.foldl onPacketAcked { h with largestReceivedPacketWithAck := w })).retransmissionQueue := rfl
      rw [h5, setInflightAsLost_queue, hq]
    · intro p hp
      obtain ⟨hm, hble⟩ := setInflightCollect_mem _ _ p hp
      refine ⟨hsubH.subset hm, ?_⟩
      rwa [hla] at hble
    · intro p hp hple
      by_cases hpa : p ∈ acked
      · exact Or.inl hpa
      refine Or.inr ?_
      have hne : ∀ a ∈ acked, a.packetNumber ≠ p.packetNumber := by
        intro a ha heqpn
        have haH : a ∈ h.packetHistory := hsub.subset ha
        have heqp : a = p := PNsorted_pn_inj h.packetHistory hinv.sorted a haH p hp heqpn
        rw [heqp] at ha
        exact hpa ha
      have hpfold : p ∈ (acked.foldl onPacketAcked
          { h with largestReceivedPacketWithAck := w }).packetHistory :=
        foldOnPacketAcked_mem p acked { h with largestReceivedPacketWithAck := w } hp hne
      have hple2 : p.packetNumber ≤
          (acked.foldl onPacketAcked
            { h with largestReceivedPacketWithAck := w }).LargestAcked := by
        rw [hla]; exact hple
      exact setInflightCollect_complete _ _ hs p hpfold hple2
  · have hinv2 := ReceivedClosePath_inv h f w t hinv
    rw [heq] at hinv2
    exact hinv2.bytes

/-- Claim C4 witness: the amended theorem applied to the handler holding
packets 1, 2, 3 after an ACK of packet 2 only (stored LargestAcked 2, history
packets 1 and 3), closing the path with a frame whose range acks nothing
still in flight: packet 1, at most the stored LargestAcked, is queued as lost
(it is in the appended lost list by the completeness clause), packet 3
remains, and bytesInFlight matches the remaining history. -/
theorem c4_witness :
    (∀ p ∈ (ReceivedClosePath (ReceivedAck sentOneTwoThree
        ⟨0, 2, 2, 0, []⟩ 1 0 envZero).2 ⟨0, 2, 2, []⟩ 2 0).2.packetHistory,
      (ReceivedAck sentOneTwoThree ⟨0, 2, 2, 0, []⟩ 1 0 envZero).2.LargestAcked <
        p.packetNumber) ∧
    (∃ acked lost,
      determineNewlyAckedPacketsClosePath (ReceivedAck sentOneTwoThree
          ⟨0, 2, 2, 0, []⟩ 1 0 envZero).2 ⟨0, 2, 2, []⟩ = .ok acked ∧
      (ReceivedClosePath (ReceivedAck sentOneTwoThree
          ⟨0, 2, 2, 0, []⟩ 1 0 envZero).2 ⟨0, 2, 2, []⟩ 2 0).2.retransmissionQueue =
        (ReceivedAck sentOneTwoThree ⟨0, 2, 2, 0, []⟩ 1 0 envZero).2.retransmissionQueue
          ++ lost ∧
      (∀ p ∈ lost, p ∈ (ReceivedAck sentOneTwoThree
          ⟨0, 2, 2, 0, []⟩ 1 0 envZero).2.packetHistory ∧
        p.packetNumber ≤
          (ReceivedAck sentOneTwoThree ⟨0, 2, 2, 0, []⟩ 1 0 envZero).2.LargestAcked) ∧
      (∀ p ∈ (ReceivedAck sentOneTwoThree
          ⟨0, 2, 2, 0, []⟩ 1 0 envZero).2.packetHistory,
        p.packetNumber ≤
          (ReceivedAck sentOneTwoThree ⟨0, 2, 2, 0, []⟩ 1 0 envZero).2.LargestAcked →
        p ∈ acked ∨ p ∈ lost)) ∧
    (ReceivedClosePath (ReceivedAck sentOneTwoThree
        ⟨0, 2, 2, 0, []⟩ 1 0 envZero).2 ⟨0, 2, 2, []⟩ 2 0).2.bytesInFlight =
      sumLengths (ReceivedClosePath (ReceivedAck sentOneTwoThree
        ⟨0, 2, 2, 0, []⟩ 1 0 envZero).2 ⟨0, 2, 2, []⟩ 2 0).2.packetHistory :=
  c4_close_path_marks_lost (ReceivedAck sentOneTwoThree ⟨0, 2, 2, 0, []⟩ 1 0 envZero).2
    ⟨0, 2, 2, []⟩ 2 0 ⟨by simp only [PNsorted]; decide, by decide, by decide⟩ (by decide)

/-! ## Claim C9 -/

/-- Claim C9 counterexample: UpdateBDW on a fresh estimator with a nonzero
sample changes nothing: the ring stays all zero and GetBandwidth stays 0,
whereas the claim requires the sample to enter the ring and the reported
bandwidth to become the ring maximum (nonzero here). -/
theorem c9_counterexample :
    UpdateBDW (NewBDWStats 0) 1048576 1000000000 = NewBDWStats 0 ∧
    (UpdateBDW (NewBDWStats 0) 1048576 1000000000).compareWindow =
      List.replicate 10 0 ∧
    GetBandwidth (UpdateBDW (NewBDWStats 0) 1048576 1000000000) = 0 := by
  decide

/-- Claim C9 (amended): UpdateBDW is a no-op — its whole body is gated behind
a local disable flag hard-coded to true — so no sample is stored in the ring
and the bandwidth reported by GetBandwidth (the stored estimate divided by 2
to the 20) never changes. -/
theorem c9_update_bdw_noop (b : BDWStats) (sentDelta sentDelay : Nat) :
    UpdateBDW b sentDelta sentDelay = b ∧
    GetBandwidth (UpdateBDW b sentDelta sentDelay) = GetBandwidth b :=
  ⟨rfl, rfl⟩

/-! ## Claim C8 -/

/-- Claim C8 counterexample: a client path manager starts nxtPathID at 1 and
the first path it creates locally gets PathID 1, which is odd, not even; the
spec and the claim state the opposite parity. -/
theorem c8_counterexample :
    (pathManagerSetup Perspective.client).nxtPathID = 1 ∧
    (createPath (pathManagerSetup Perspective.client) false).1 = some 1 ∧
    (createPath (pathManagerSetup Perspective.server) false).1 = some 2 ∧
    1 % 2 = 1 ∧ 2 % 2 = 0 := by
  decide

def createPathsN : Nat → PathManager → PathManager
  | 0, pm => pm
  | n + 1, pm => createPathsN n (createPath pm false).2

theorem createPathsN_nxtPathID (n : Nat) (pm : PathManager) :
    (createPathsN n pm).nxtPathID = pm.nxtPathID + 2 * n := by
  induction n generalizing pm with
  | zero => simp [createPathsN]
  | succ n ih =>
    simp only [createPathsN, createPath, Bool.false_eq_true, if_neg]
    rw [ih]
    simp
    omega

/-- Claim C8 (amended): PathID 0 is the initial path; every path a client
creates locally has an odd PathID (starting at 1) and every path a server
creates locally has an even PathID (starting at 2), with nxtPathID advancing
by 2 per created path; createPathFromRemote rejects a PathID that already
exists, and rejects odd PathIDs at a client and even PathIDs at a server
(matching the parity the peer uses for its own paths). -/
theorem c8_path_id_parity (n : Nat) (pm : PathManager) (pathID : Nat) :
    (pathManagerSetup Perspective.client).paths = [InitialPathID] ∧
    (pathManagerSetup Perspective.server).paths = [InitialPathID] ∧
    (createPathsN n (pathManagerSetup Perspective.client)).nxtPathID % 2 = 1 ∧
    (createPathsN n (pathManagerSetup Perspective.server)).nxtPathID % 2 = 0 ∧
    (createPath pm false).1 = some pm.nxtPathID ∧
    (createPath pm false).2.nxtPathID = pm.nxtPathID + 2 ∧
    ((∃ pm2, createPathFromRemote pm pathID = .ok pm2) ↔
      (pathID ∉ pm.paths ∧
        (pm.perspective = .client → pathID % 2 = 0) ∧
        (pm.perspective = .server → pathID % 2 = 1))) := by
  refine ⟨rfl, rfl, ?_, ?_, by simp [createPath], by simp [createPath], ?_⟩
  · rw [createPathsN_nxtPathID]
    simp only [pathManagerSetup]
    omega
  · rw [createPathsN_nxtPathID]
    simp only [pathManagerSetup]
    omega
  · constructor
    · rintro ⟨pm2, hok⟩
      by_cases hmem : pathID ∈ pm.paths
      · simp [createPathFromRemote, hmem] at hok
      · refine ⟨hmem, ?_, ?_⟩
        · intro hc
          by_contra hodd
          simp [createPathFromRemote, hmem, hc, hodd] at hok
        · intro hc
          by_contra hodd
          have heven : pathID % 2 = 0 := by omega
          simp [createPathFromRemote, hmem, hc, heven] at hok
    · rintro ⟨hmem, hcl, hsv⟩
      cases hp : pm.perspective with
      | client =>
        have he : pathID % 2 = 0 := hcl hp
        exact ⟨{ pm with paths := pm.paths ++ [pathID] },
          by simp [createPathFromRemote, hmem, hp, he]⟩
      | server =>
        have ho : pathID % 2 = 1 := hsv hp
        exact ⟨{ pm with paths := pm.paths ++ [pathID] },
          by simp [createPathFromRemote, hmem, hp, ho]⟩

/-! ## Claim C6: no empty and no lone-STOP_WAITING packets -/

def isStopWaitingFrame : Frame → Bool
  | .stopWaiting _ => true
  | _ => false

def isLoneStopWaiting : List Frame → Bool
  | [Frame.stopWaiting _] => true
  | _ => false

/-- The property of one packer result: when a packet is returned without
error, its frame list is nonempty and is not a single STOP_WAITING frame. -/
def packResultOk (r : Option PackedPacket × Option PackErr × PackerState) : Prop :=
  match r with
  | (some pkt, none, _) => pkt.frames ≠ [] ∧ isLoneStopWaiting pkt.frames = false
  | _ => True

theorem exists_of_isLoneStopWaiting (fs : List Frame)
    (h : isLoneStopWaiting fs = true) : ∃ swf, fs = [Frame.stopWaiting swf] := by
  cases fs with
  | nil => exact nomatch h
  | cons f rest =>
    cases rest with
    | cons b r => cases f <;> exact nomatch h
    | nil =>
      cases f with
      | stopWaiting swf => exact ⟨swf, rfl⟩
      | ack a => exact nomatch h
      | stream a => exact nomatch h
      | ping => exact nomatch h
      | connectionClose => exact nomatch h
      | blocked a => exact nomatch h
      | other => exact nomatch h

theorem popControlAux_mem (minLength : Frame → Nat) (m : Nat) :
    ∀ (cf payload : List Frame) (plen : Nat) (f : Frame),
      f ∈ (popControlAux minLength m cf payload plen).2.1 → f ∈ payload ∨ f ∈ cf := by
  intro cf
  induction cf with
  | nil =>
    intro payload plen f hf
    exact Or.inl hf
  | cons frame rest ih =>
    intro payload plen f hf
    simp only [popControlAux] at hf
    split at hf
    · exact Or.inl hf
    · rcases ih _ _ f hf with hp | hc
      · rcases List.mem_append.mp hp with h1 | h2
        · exact Or.inl h1
        · right
          rw [List.mem_singleton.mp h2]
          exact List.mem_cons_self _ _
      · exact Or.inr (List.mem_cons_of_mem _ hc)

theorem popControlFrames_mem (minLength : Frame → Nat) (m : Nat)
    (cf payload : List Frame) (plen : Nat) (f : Frame)
    (hf : f ∈ (popControlFrames minLength m cf payload plen).2.1) :
    f ∈ payload ∨ f ∈ cf := by
  unfold popControlFrames at hf
  rcases popControlAux_mem minLength m cf.reverse payload plen f hf with h1 | h2
  · exact Or.inl h1
  · exact Or.inr (List.mem_reverse.mp h2)

theorem composeNextPacket_stopWaiting (p : PackerState) (env : PackerEnv) (m : Nat)
    (c : Bool) (pid : Nat) (pop : Nat → List StreamFrame) :
    (composeNextPacket p env m c pid pop).2.2.stopWaiting = p.stopWaiting := by
  unfold composeNextPacket
  dsimp only
  split <;> split <;> (try split) <;> (try split) <;> rfl

theorem composeNextPacket_stopWaiting_eq {p p2 : PackerState} {env : PackerEnv}
    {m : Nat} {c : Bool} {pid : Nat} {pop : Nat → List StreamFrame}
    {cerr : Option PackErr} {payload : List Frame}
    (heq : composeNextPacket p env m c pid pop = (cerr, payload, p2)) :
    p2.stopWaiting = p.stopWaiting := by
  have h := composeNextPacket_stopWaiting p env m c pid pop
  rw [heq] at h
  exact h

theorem composeNextPacket_no_stop_waiting (p : PackerState) (env : PackerEnv)
    (m : Nat) (c : Bool) (pid : Nat) (pop : Nat → List StreamFrame)
    (hsw : p.stopWaiting pid = none)
    (hctl : ∀ f ∈ p.controlFrames, isStopWaitingFrame f = false) :
    ∀ f ∈ (composeNextPacket p env m c pid pop).2.1,
      isStopWaitingFrame f = false := by
  intro f hf
  unfold composeNextPacket at hf
  rw [hsw] at hf
  have hstart : ∀ (start : List Frame × Nat),
      (∀ g ∈ start.1, isStopWaitingFrame g = false) →
      ∀ g ∈ (popControlFrames env.minLength m p.controlFrames start.1 start.2).2.1,
        isStopWaitingFrame g = false := by
    intro start hst g hg
    rcases popControlFrames_mem env.minLength m p.controlFrames start.1 start.2 g hg with
      h1 | h2
    · exact hst g h1
    · exact hctl g h2
  rcases hak : p.ackFrame pid with _ | af <;> rw [hak] at hf <;> dsimp only at hf
  · -- no ACK queued: the payload starts empty
    have hp := hstart ([], 0) (by intro g hg; cases hg)
    split at hf
    · exact hp f hf
    · split at hf
      · exact hp f hf
      · rcases List.mem_append.mp hf with h1 | h2
        · exact hp f h1
        · obtain ⟨sf, _, hsf⟩ := List.mem_map.mp h2
          rw [← hsf]
          rfl
  · -- an ACK frame was queued: the payload starts as that single ACK frame
    have hp := hstart ([] ++ [Frame.ack af], 0 + env.minLength (Frame.ack af))
      (by simp [isStopWaitingFrame])
    split at hf
    · exact hp f hf
    · split at hf
      · exact hp f hf
      · rcases List.mem_append.mp hf with h1 | h2
        · exact hp f h1
        · obtain ⟨sf, _, hsf⟩ := List.mem_map.mp h2
          rw [← hsf]
          rfl

theorem composeNextPacket_no_stop_waiting_eq {p p2 : PackerState} {env : PackerEnv}
    {m : Nat} {c : Bool} {pid : Nat} {pop : Nat → List StreamFrame}
    {cerr : Option PackErr} {payload : List Frame}
    (heq : composeNextPacket p env m c pid pop = (cerr, payload, p2))
    (hsw : p.stopWaiting pid = none)
    (hctl : ∀ f ∈ p.controlFrames, isStopWaitingFrame f = false) :
    ∀ f ∈ payload, isStopWaitingFrame f = false := by
  have h := composeNextPacket_no_stop_waiting p env m c pid pop hsw hctl
  rw [heq] at h
  exact h

/-- When the ping test of the packer body is true, the control queue starts
with a PING frame. -/
theorem controlFrames_ping (cf : List Frame)
    (hping : (match cf.head? with
      | some Frame.ping => true
      | _ => false) = true) :
    ∃ rest, cf = Frame.ping :: rest := by
  cases cf with
  | nil => exact nomatch hping
  | cons f rest =>
    cases f with
    | ping => exact ⟨rest, rfl⟩
    | ack a => exact nomatch hping
    | stopWaiting a => exact nomatch hping
    | stream a => exact nomatch hping
    | connectionClose => exact nomatch hping
    | blocked a => exact nomatch hping
    | other => exact nomatch hping

theorem packPacketWith_ok (p : PackerState) (env : PackerEnv) (pth : PathState)
    (pop : Nat → List StreamFrame)
    (hctl : ∀ f ∈ p.controlFrames, isStopWaitingFrame f = false) :
    packResultOk (packPacketWith p env pth pop) := by
  unfold packPacketWith
  split
  · -- crypto packet: a single stream frame
    unfold packCryptoPacket
    dsimp only
    split
    · exact trivial
    · exact ⟨by simp, rfl⟩
  · -- main body: split on the queued STOP_WAITING frame
    split
    · -- a STOP_WAITING frame stays queued through composeNextPacket
      next swf heqsw =>
      dsimp only
      split
      · exact trivial
      · next payload p2 heqc =>
        split at heqc
        · -- ping branch: the packet is exactly one PING frame
          next hping =>
          obtain ⟨rest, hcf⟩ := controlFrames_ping _ hping
          cases heqc
          rw [hcf]
          simp only [List.take_succ_cons, List.take_zero]
          split
          · exact trivial
          · split
            · exact trivial
            · split
              · exact trivial
              · exact ⟨by simp, rfl⟩
        · -- compose branch
          next hping =>
          have hsw2 := composeNextPacket_stopWaiting_eq heqc
          split
          · exact trivial
          · next hlen0 =>
            split
            · exact trivial
            · next hrefuse =>
              split
              · exact trivial
              · refine ⟨?_, ?_⟩
                · intro hnil
                  exact hlen0 (by rw [show payload = ([] : List Frame) from hnil]; rfl)
                · by_contra hlone
                  rw [Bool.not_eq_false] at hlone
                  obtain ⟨swf2, hpay⟩ := exists_of_isLoneStopWaiting payload hlone
                  apply hrefuse
                  refine ⟨by rw [hpay]; rfl, ?_⟩
                  rw [congrFun hsw2 pth.pathID]
                  simp [setAt]
    · -- no STOP_WAITING queued: no payload frame is a STOP_WAITING frame
      next heqsw =>
      dsimp only
      split
      · exact trivial
      · next payload p2 heqc =>
        split at heqc
        · -- ping branch
          next hping =>
          obtain ⟨rest, hcf⟩ := controlFrames_ping _ hping
          cases heqc
          rw [hcf]
          simp only [List.take_succ_cons, List.take_zero]
          split
          · exact trivial
          · split
            · exact trivial
            · split
              · exact trivial
              · exact ⟨by simp, rfl⟩
        · -- compose branch
          next hping =>
          have hnosw := composeNextPacket_no_stop_waiting_eq heqc heqsw hctl
          split
          · exact trivial
          · next hlen0 =>
            split
            · exact trivial
            · next hrefuse =>
              split
              · exact trivial
              · refine ⟨?_, ?_⟩
                · intro hnil
                  exact hlen0 (by rw [show payload = ([] : List Frame) from hnil]; rfl)
                · by_contra hlone
                  rw [Bool.not_eq_false] at hlone
                  obtain ⟨swf2, hpay⟩ := exists_of_isLoneStopWaiting payload hlone
                  have hm : Frame.stopWaiting swf2 ∈ payload := by
                    rw [hpay]
                    exact List.mem_cons_self _ _
                  exact Bool.noConfusion (hnosw _ hm)

theorem packAckPacket_ok (p : PackerState) (env : PackerEnv) (pth : PathState) :
    packResultOk (PackAckPacket p env pth) := by
  unfold PackAckPacket
  split
  · exact trivial
  · split
    · -- a STOP_WAITING frame is appended after the ACK: two frames
      dsimp only
      split
      · exact trivial
      · exact ⟨by simp, rfl⟩
    · -- only the ACK frame
      dsimp only
      split
      · exact trivial
      · exact ⟨by simp, rfl⟩

theorem packHandshakeRetransmission_ok (p : PackerState) (env : PackerEnv)
    (packet : Packet) (pth : PathState) (hpkt : packet.frames ≠ []) :
    packResultOk (PackHandshakeRetransmission p env packet pth) := by
  unfold PackHandshakeRetransmission
  split
  · exact trivial
  · split
    · exact trivial
    · split
      · exact trivial
      · dsimp only
        split
        · exact trivial
        · refine ⟨by simp, ?_⟩
          cases hfr : packet.frames with
          | nil => exact absurd hfr hpkt
          | cons a r => rfl

/-! Concrete packer inputs for the literal scenario of Claim C6: only a
StopWaitingFrame with LeastUnacked 10 is queued, nothing else. -/

def c6Swf : StopWaitingFrame :=
  { leastUnacked := 10, packetNumber := 0, packetNumberLen := 0 }

def c6Packer : PackerState :=
  { connectionID := 4, perspective := .client, version := 512, controlFrames := [],
    stopWaiting := fun i => if i = 0 then some c6Swf else none,
    ackFrame := fun _ => none }

def c6Env : PackerEnv :=
  { hasCryptoStreamFrame := false
    popCryptoStreamFrame := fun _ => sampleStreamFrame
    encLevel := .forwardSecure
    sealOverhead := 12
    cryptoEncLevel := .secure
    cryptoSealOverhead := 12
    sealerForLevelOk := true
    sealerForLevelOverhead := 12
    truncateConnectionID := false
    publicHeaderLength := 20
    pnLenForHeader := fun _ _ => 2
    minLength := fun _ => 10
    popStreamFrames := fun _ => []
    popStreamFramesOfPath := fun _ => []
    popStreamFramesOfStream := fun _ _ => []
    blockedFrames := []
    bufferLength := fun _ fs => 30 + 10 * fs.length
    sealedBytes := fun _ _ => [] }

def c6Path : PathState :=
  { pathID := 0, leastUnacked := 1, pnPeek := 7, pnPop := 7,
    sessHandshakeComplete := true }

def c6HandshakePacket : Packet :=
  { packetNumber := 3, frames := [Frame.stream sampleStreamFrame], length := 100,
    encryptionLevel := .secure }

/-- Claim C6: no packer entry point returns, without error, a packet whose
frame list is empty or a single STOP_WAITING frame.  For PackPacket,
PackPacketOfPath and PackPacketOfStream this needs that the shared control
queue holds no STOP_WAITING frame, which QueueControlFrame guarantees (it
routes STOP_WAITING frames into the per-path map, leaving the queue alone);
for PackHandshakeRetransmission it needs the retransmitted packet to carry at
least one frame, true of every packet the handler tracks.  In particular,
PackPacket with only a queued StopWaitingFrame with LeastUnacked 10 returns
no packet and no error. -/
theorem c6_no_lone_stop_waiting_packets (p : PackerState) (env : PackerEnv)
    (pth : PathState) (packet : Packet) (streamID : Nat)
    (hctl : ∀ f ∈ p.controlFrames, isStopWaitingFrame f = false)
    (hpkt : packet.frames ≠ []) :
    packResultOk (PackPacket p env pth) ∧
    packResultOk (PackPacketOfPath p env pth) ∧
    packResultOk (PackPacketOfStream p env pth streamID) ∧
    packResultOk (PackAckPacket p env pth) ∧
    packResultOk (PackHandshakeRetransmission p env packet pth) ∧
    (∀ swf : StopWaitingFrame,
      (QueueControlFrame p (Frame.stopWaiting swf) pth.pathID).controlFrames =
        p.controlFrames) ∧
    (PackPacket c6Packer c6Env c6Path).1 = none ∧
    (PackPacket c6Packer c6Env c6Path).2.1 = none :=
  ⟨packPacketWith_ok p env pth _ hctl, packPacketWith_ok p env pth _ hctl,
   packPacketWith_ok p env pth _ hctl, packAckPacket_ok p env pth,
   packHandshakeRetransmission_ok p env packet pth hpkt,
   fun _ => rfl, by decide, by decide⟩

/-- Claim C6 witness: the theorem applied to the concrete packer that has
only the STOP_WAITING frame queued and to a handshake packet holding one
stream frame. -/
theorem c6_witness :
    packResultOk (PackPacket c6Packer c6Env c6Path) ∧
    packResultOk (PackHandshakeRetransmission c6Packer c6Env c6HandshakePacket c6Path) ∧
    (PackPacket c6Packer c6Env c6Path).1 = none := by
  have h := c6_no_lone_stop_waiting_packets c6Packer c6Env c6Path c6HandshakePacket 0
    (by intro f hf; cases hf) (by decide)
  exact ⟨h.1, h.2.2.2.2.1, h.2.2.2.2.2.2.1⟩

end PStream
